import Mathlib

/-!
# Verification development for the FineStructureScript core

A shallow embedding of the core of the FineStructureScript interpreter
(lexer, interner, scope chain, map container, and the AST-walking
evaluator), together with theorems about the properties its specification
states.

Modelling conventions:

* C++ `std::string` byte strings are modelled as Lean `String`, and
  `std::string_view` likewise.  `uint32_t` symbol ids and scope/heap ids
  are modelled as `Nat` (no claim exercises 32-bit wraparound of ids).
  `int64_t` script integers are modelled as `Int`; no verified claim
  exercises 64-bit overflow.
* `double` (IEEE-754) payloads are carried as opaque bit patterns
  (`Nat`); no float arithmetic, formatting, or float equality subtlety
  (NaN, signed zero) is exercised by any claim, so those branches of the
  source are not given computational float semantics.
* Shared-ownership containers (`shared_ptr<vector<Value>>`,
  `shared_ptr<MapData>`, `shared_ptr<Closure>`, `shared_ptr<Scope>`) are
  modelled as indices into heaps held in a `Store`; mutation through one
  alias is then visible through every alias, as in the source.
  Strings are kept by value: no modelled operation mutates a string.
* C++ exceptions (`ScriptError`, `ReturnSignal`) become the explicit
  result type `EvalResult` with `err` and `ret` constructors; `try`/
  `catch` sites become matches on that result.  Error messages are kept
  verbatim but without the source-location prefix that
  `ScriptError::what()` prepends.
* Loops and recursion through the heap take a fuel parameter; fuel
  exhaustion is the distinct result `timeout`, never confused with a
  source-level error.
-/

namespace FineScript

/-! ## Interner (src/src/interner.cpp)

`DefaultInterner` stores strings in a deque `strings_` (id = position)
plus a reverse index `index_ : string_view → id` that always mirrors
`strings_` (every `emplace_back` is paired with an `index_` insert, so
`index_.find(s)` succeeds exactly when `s` occurs in `strings_`, and
yields the position of its first — in fact only — occurrence).  The
state is therefore faithfully represented by the list `strings_`. -/

structure DefaultInterner where
  strings : List String
deriving Repr, DecidableEq

/-- Position of the first occurrence of `s`, mirroring
`index_.find(str)` (the reverse index maps each stored string to the
id it was inserted with, which is its position in `strings_`). -/
def firstIdx (s : String) : List String → Option Nat
  | [] => none
  | a :: l => if a = s then some 0 else (firstIdx s l).map (· + 1)

/-- `DefaultInterner::intern` (interner.cpp:6-15): if the string is
already present return its id, else append it with id = current size. -/
def DefaultInterner.intern (it : DefaultInterner) (s : String) :
    Nat × DefaultInterner :=
  match firstIdx s it.strings with
  | some id => (id, it)
  | none => (it.strings.length, ⟨it.strings ++ [s]⟩)

/-- `DefaultInterner::lookup` (interner.cpp:17-22): returns the stored
string, or fails (`std::out_of_range`, modelled as `none`) when
`id >= strings_.size()`. -/
def DefaultInterner.lookup (it : DefaultInterner) (id : Nat) :
    Option String :=
  it.strings.get? id

/-- Helper: `firstIdx` returns an index whose element is the key. -/
theorem firstIdx_get (l : List String) (s : String) (id : Nat)
    (h : firstIdx s l = some id) : l.get? id = some s := by
  induction l generalizing id with
  | nil => simp [firstIdx] at h
  | cons a l ih =>
    by_cases has : a = s
    · simp [firstIdx, has] at h
      subst has
      simp [← h]
    · simp [firstIdx, has] at h
      obtain ⟨j, hj, rfl⟩ := h
      simpa using ih j hj

/-- Helper: `firstIdx` fails exactly on absent keys. -/
theorem firstIdx_none_iff (l : List String) (s : String) :
    firstIdx s l = none ↔ s ∉ l := by
  induction l with
  | nil => simp [firstIdx]
  | cons a l ih =>
    by_cases has : a = s
    · simp [firstIdx, has]
    · simp [firstIdx, has, ih, Ne.symm has]

/-- Helper: `firstIdx` on a list whose sole occurrence of `s` is a
final singleton append finds exactly that position. -/
theorem firstIdx_append_self (l : List String) (s : String)
    (h : s ∉ l) : firstIdx s (l ++ [s]) = some l.length := by
  induction l with
  | nil => simp [firstIdx]
  | cons a l ih =>
    have hne : a ≠ s := fun hc => h (by simp [hc])
    have hs : s ∉ l := fun hc => h (List.mem_cons_of_mem _ hc)
    simp [firstIdx, hne, ih hs]

end FineScript

namespace FineScript

/-- C6: the interner contract.  For every starting state `it` and byte
strings `s ≠ t`: `lookup (intern s) = s` (round trip); a repeated
`intern s` returns the same id without changing the state (stability);
`intern s` and `intern t` return distinct ids when `s ≠ t`
(injectivity); a string not yet stored is assigned the next id,
`strings_.size()` — i.e. ids are handed out monotonically from zero in
first-insertion order; and `lookup` fails on every id outside
`0 .. strings_.size() - 1`, which is exactly the set of ids `intern`
has returned. -/
theorem interner_contract (it : DefaultInterner) (s t : String) :
    ((it.intern s).2.lookup (it.intern s).1 = some s) ∧
    ((it.intern s).2.intern s = ((it.intern s).1, (it.intern s).2)) ∧
    (s ≠ t → ((it.intern s).2.intern t).1 ≠ (it.intern s).1) ∧
    (s ∉ it.strings → (it.intern s).1 = it.strings.length) ∧
    (∀ id, (it.intern s).2.strings.length ≤ id →
      (it.intern s).2.lookup id = none) := by
  have hmem : ((it.intern s).2).strings.get? ((it.intern s).1) = some s := by
    unfold DefaultInterner.intern
    cases hidx : firstIdx s it.strings with
    | some id => simpa using firstIdx_get _ _ _ hidx
    | none => simp
  have hfound : firstIdx s ((it.intern s).2).strings = some ((it.intern s).1) := by
    unfold DefaultInterner.intern
    cases hidx : firstIdx s it.strings with
    | some id => simpa using hidx
    | none =>
      simpa using firstIdx_append_self _ _ ((firstIdx_none_iff _ _).mp hidx)
  refine ⟨hmem, ?_, ?_, ?_, ?_⟩
  · -- stability: s is present in the post-state, at index (intern s).1
    rw [DefaultInterner.intern, hfound]
  · -- injectivity
    intro hst
    rw [DefaultInterner.intern]
    cases hidx : firstIdx t ((it.intern s).2).strings with
    | some id =>
      simp only
      intro hc
      have := firstIdx_get _ _ _ hidx
      rw [hc, hmem] at this
      exact hst (Option.some.inj this)
    | none =>
      simp only
      intro hc
      have hlt : (it.intern s).1 < ((it.intern s).2).strings.length :=
        (List.get?_eq_some.mp hmem).1
      omega
  · -- fresh strings get id = size
    intro hnot
    rw [DefaultInterner.intern, (firstIdx_none_iff _ _).mpr hnot]
  · -- lookup fails beyond size
    intro id hid
    unfold DefaultInterner.lookup
    exact List.get?_eq_none.mpr hid

/-- Witness for C6 at a concrete state: intern "x" then "y" into the
interner already holding "a". -/
theorem interner_contract_witness :
    ((⟨["a"]⟩ : DefaultInterner).intern "x").2.lookup
        ((⟨["a"]⟩ : DefaultInterner).intern "x").1 = some "x" ∧
    ((((⟨["a"]⟩ : DefaultInterner).intern "x").2.intern "y").1 ≠
        ((⟨["a"]⟩ : DefaultInterner).intern "x").1) ∧
    ((⟨["a"]⟩ : DefaultInterner).intern "x").1 = 1 := by
  have h := interner_contract (⟨["a"]⟩ : DefaultInterner) "x" "y"
  refine ⟨h.1, h.2.2.1 (by decide), ?_⟩
  have := h.2.2.2.1 (by decide)
  simpa using this

/-! ## Value (src/include/finescript/value.h, src/src/value.cpp)

The ten-variant tagged value.  Shared-ownership payloads
(`shared_ptr<vector<Value>>`, `shared_ptr<MapData>`,
`shared_ptr<Closure>`, `shared_ptr<NativeFunctionObject>`) are indices
into the heaps of the `Store` defined below.  `double` payloads are
opaque bit patterns.  Strings are kept by value (no modelled operation
mutates a string through an alias). -/

inductive Value where
  | nil
  | bool (b : Bool)
  | int (i : Int)
  | float (bits : Nat)
  | symbol (id : Nat)
  | str (s : String)
  | array (ref : Nat)
  | map (ref : Nat)
  | closure (ref : Nat)
  | native (ref : Nat)
deriving Repr, DecidableEq

/-- `Value::truthy` (value.cpp:204-208): only Nil and Bool(false) are
falsy. -/
def Value.truthy : Value → Bool
  | .nil => false
  | .bool b => b
  | _ => true

def Value.isNil : Value → Bool
  | .nil => true
  | _ => false

def Value.isInt : Value → Bool
  | .int _ => true
  | _ => false

def Value.isSymbol : Value → Bool
  | .symbol _ => true
  | _ => false

def Value.isString : Value → Bool
  | .str _ => true
  | _ => false

def Value.isArray : Value → Bool
  | .array _ => true
  | _ => false

def Value.isMap : Value → Bool
  | .map _ => true
  | _ => false

def Value.isClosure : Value → Bool
  | .closure _ => true
  | _ => false

def Value.isNativeFunction : Value → Bool
  | .native _ => true
  | _ => false

def Value.isNumeric (v : Value) : Bool :=
  v.isInt || match v with | .float _ => true | _ => false

/-- `Value::isCallable` (value.h:75). -/
def Value.isCallable (v : Value) : Bool :=
  v.isClosure || v.isNativeFunction

/-- `Value::typeName` (value.cpp:247-261). -/
def Value.typeName : Value → String
  | .nil => "nil"
  | .bool _ => "bool"
  | .int _ => "int"
  | .float _ => "float"
  | .symbol _ => "symbol"
  | .str _ => "string"
  | .array _ => "array"
  | .map _ => "map"
  | .closure _ => "function"
  | .native _ => "function"

/-! ## Association-list operations

`std::unordered_map<uint32_t, Value>` is modelled as an association
list with the map semantics of `find` / `operator[]` / `erase` /
`count`; iteration order of an unordered map is unspecified, and the
association list's insertion order is one consistent refinement of it. -/

def alistLookup (k : Nat) : List (Nat × Value) → Option Value
  | [] => none
  | (k', v) :: rest => if k' = k then some v else alistLookup k rest

def alistContains (k : Nat) (l : List (Nat × Value)) : Bool :=
  (alistLookup k l).isSome

/-- `m[k] = v`: overwrite in place if present, else append. -/
def alistInsert (k : Nat) (v : Value) : List (Nat × Value) → List (Nat × Value)
  | [] => [(k, v)]
  | (k', v') :: rest =>
    if k' = k then (k', v) :: rest else (k', v') :: alistInsert k v rest

/-- `m.erase(k)` for a map (at most one occurrence of each key). -/
def alistErase (k : Nat) : List (Nat × Value) → List (Nat × Value)
  | [] => []
  | (k', v') :: rest =>
    if k' = k then rest else (k', v') :: alistErase k rest

/-- `std::unordered_set<uint32_t>::insert`. -/
def natsetInsert (k : Nat) (s : List Nat) : List Nat :=
  if k ∈ s then s else k :: s

/-- `std::unordered_set<uint32_t>::erase`. -/
def natsetErase (k : Nat) (s : List Nat) : List Nat :=
  s.filter (fun x => x ≠ k)

/-! ## MapData (src/src/map_data.cpp)

The local (non-proxy) map: an owned `entries_` mapping plus the
`methodKeys_` flag set.  The `proxy_` branches of the source delegate
to a host-supplied `ProxyMap` object which lives outside the core;
every map constructed by the evaluator (`Value::map()`) is local, and
no claim exercises a proxy map, so the embedding carries the
`proxy_ == nullptr` paths. -/

structure MapData where
  entries : List (Nat × Value)
  methodKeys : List Nat
deriving Repr, DecidableEq

/-- `MapData::get` (map_data.cpp:6-11): stored value or Nil. -/
def MapData.get (m : MapData) (key : Nat) : Value :=
  match alistLookup key m.entries with
  | some v => v
  | none => Value.nil

/-- `MapData::set` (map_data.cpp:13-19): store the value.  Note that
the method-flag set is untouched. -/
def MapData.set (m : MapData) (key : Nat) (value : Value) : MapData :=
  { m with entries := alistInsert key value m.entries }

/-- `MapData::has` (map_data.cpp:21-24). -/
def MapData.has (m : MapData) (key : Nat) : Bool :=
  alistContains key m.entries

/-- `MapData::remove` (map_data.cpp:26-30): clears the method flag and
erases the entry; true iff an entry was erased. -/
def MapData.remove (m : MapData) (key : Nat) : Bool × MapData :=
  (m.has key,
   { entries := alistErase key m.entries,
     methodKeys := natsetErase key m.methodKeys })

/-- `MapData::keys` (map_data.cpp:32-40). -/
def MapData.keys (m : MapData) : List Nat :=
  m.entries.map (·.1)

/-- `MapData::setMethod` (map_data.cpp:42-49): store AND mark. -/
def MapData.setMethod (m : MapData) (key : Nat) (funcValue : Value) : MapData :=
  { entries := alistInsert key funcValue m.entries,
    methodKeys := natsetInsert key m.methodKeys }

/-- `MapData::markMethod` (map_data.cpp:51-53). -/
def MapData.markMethod (m : MapData) (key : Nat) : MapData :=
  { m with methodKeys := natsetInsert key m.methodKeys }

/-- `MapData::isMethod` (map_data.cpp:55-57). -/
def MapData.isMethod (m : MapData) (key : Nat) : Bool :=
  key ∈ m.methodKeys

/-! ## Scope (src/src/scope.cpp)

A `Scope` is a bindings frame plus an optional parent handle.  The
`shared_ptr<Scope>` graph is modelled as an arena `List Frame`
indexed by scope id; `createChild` appends a fresh frame, so on every
reachable heap a frame's parent id is strictly smaller than its own id
(`ScopeWF`).  Chain walks take fuel `sid + 1`, which `ScopeWF` proves
sufficient. -/

structure Frame where
  parent : Option Nat
  bindings : List (Nat × Value)
deriving Repr, DecidableEq

/-- Parent ids strictly precede child ids: true of every heap built
through `createGlobal` / `createChild`. -/
def ScopeWF (h : List Frame) : Prop :=
  ∀ i (fr : Frame), h[i]? = some fr → ∀ p, fr.parent = some p → p < i

/-- `Scope::createChild` (scope.cpp:11-13): a fresh child frame. -/
def scopeCreateChild (h : List Frame) (sid : Nat) : List Frame × Nat :=
  (h ++ [⟨some sid, []⟩], h.length)

/-- Replace the bindings entry of frame `i` with `k ↦ v`
(`bindings_[k] = v` on that frame). -/
def updateBinding (h : List Frame) (i k : Nat) (v : Value) : List Frame :=
  match h[i]? with
  | some fr => h.set i ⟨fr.parent, alistInsert k v fr.bindings⟩
  | none => h

/-- `Scope::lookup` (scope.cpp:15-20): walk the chain upward. -/
def scopeLookupAux (h : List Frame) (k : Nat) : Nat → Nat → Option Value
  | 0, _ => none
  | fuel+1, sid =>
    match h[sid]? with
    | none => none
    | some fr =>
      match alistLookup k fr.bindings with
      | some v => some v
      | none =>
        match fr.parent with
        | some p => scopeLookupAux h k fuel p
        | none => none

def scopeLookup (h : List Frame) (sid k : Nat) : Option Value :=
  scopeLookupAux h k (sid + 1) sid

/-- The walk of `Scope::set` (scope.cpp:22-35): find the nearest frame
in the chain where `k` is bound and update it there; `none` when the
chain is exhausted without finding `k`. -/
def scopeSetFrom (h : List Frame) (k : Nat) (v : Value) :
    Nat → Nat → Option (List Frame)
  | 0, _ => none
  | fuel+1, sid =>
    match h[sid]? with
    | none => none
    | some fr =>
      if alistContains k fr.bindings then
        some (h.set sid ⟨fr.parent, alistInsert k v fr.bindings⟩)
      else
        match fr.parent with
        | some p => scopeSetFrom h k v fuel p
        | none => none

/-- `Scope::set` (scope.cpp:22-35), Python semantics: update in the
nearest enclosing frame that binds `k`; if none does, create the
binding in this frame. -/
def scopeSet (h : List Frame) (sid k : Nat) (v : Value) : List Frame :=
  match scopeSetFrom h k v (sid + 1) sid with
  | some h' => h'
  | none => updateBinding h sid k v

/-- `Scope::define` (scope.cpp:37-39): always bind in this frame. -/
def scopeDefine (h : List Frame) (sid k : Nat) (v : Value) : List Frame :=
  updateBinding h sid k v

/-- The parent chain `S₀ → S₁ → … → Sₙ` rooted at `sid`, as a list of
scope ids ending at a parentless frame. -/
inductive IsChain (h : List Frame) : Nat → List Nat → Prop where
  | last : ∀ sid fr, h[sid]? = some fr → fr.parent = none →
      IsChain h sid [sid]
  | cons : ∀ sid fr p rest, h[sid]? = some fr → fr.parent = some p →
      IsChain h p rest → IsChain h sid (sid :: rest)

/-- Whether frame `i` of the heap binds `k`. -/
def boundIn (h : List Frame) (k i : Nat) : Bool :=
  match h[i]? with
  | some fr => alistContains k fr.bindings
  | none => false

theorem chain_length_le (h : List Frame) (sid : Nat) (ids : List Nat)
    (hwf : ScopeWF h) (hc : IsChain h sid ids) : ids.length ≤ sid + 1 := by
  induction hc with
  | last sid fr _ _ => simp
  | cons sid fr p rest hget hpar _ ih =>
    have hlt : p < sid := hwf sid fr hget p hpar
    simp only [List.length_cons]
    omega

/-- `scopeSetFrom` computes the `find?` of the bound predicate along
the chain, updating the found frame. -/
theorem scopeSetFrom_spec (h : List Frame) (k : Nat) (v : Value)
    (sid : Nat) (ids : List Nat) (hc : IsChain h sid ids) :
    ∀ fuel, ids.length ≤ fuel →
      scopeSetFrom h k v fuel sid =
        (ids.find? (boundIn h k)).map (fun i => updateBinding h i k v) := by
  induction hc with
  | last sid fr hget hpar =>
    intro fuel hfuel
    match fuel, hfuel with
    | fuel+1, _ =>
      simp only [scopeSetFrom, hget, hpar]
      by_cases hb : alistContains k fr.bindings
      · simp [List.find?, boundIn, hget, hb, updateBinding, hpar]
      · simp [List.find?, boundIn, hget, hb]
  | cons sid fr p rest hget hpar hrest ih =>
    intro fuel hfuel
    match fuel, hfuel with
    | fuel+1, hfuel =>
      simp only [scopeSetFrom, hget, hpar]
      by_cases hb : alistContains k fr.bindings
      · simp [List.find?, boundIn, hget, hb, updateBinding, hpar]
      · rw [ih fuel (by simpa using Nat.le_of_succ_le_succ hfuel)]
        simp [List.find?, boundIn, hget, hb]

/-- Frames other than `i` are untouched by `updateBinding`. -/
theorem updateBinding_other (h : List Frame) (i k : Nat) (v : Value)
    (j : Nat) (hne : j ≠ i) : (updateBinding h i k v)[j]? = h[j]? := by
  unfold updateBinding
  cases hget : h[i]? with
  | none => rfl
  | some fr => exact List.getElem?_set_ne (Ne.symm hne)

end FineScript

namespace FineScript

/-- C4: Python scope semantics.  For any scope chain
`S₀ → S₁ → … → Sₙ` (listed as `ids`, rooted at `sid = S₀`) in a
well-formed heap: `Scope::set` updates the binding in the *nearest*
frame of the chain that binds `k` — formalised by `List.find?` over the
chain — and leaves every other frame unchanged; when no frame in the
chain binds `k`, it creates the binding in `S₀`; and `Scope::define`
(the `let` operation) binds in `S₀` unconditionally. -/
theorem scope_python_semantics (h : List Frame) (sid k : Nat) (v : Value)
    (ids : List Nat) (hwf : ScopeWF h) (hc : IsChain h sid ids) :
    (∀ i, ids.find? (boundIn h k) = some i →
      scopeSet h sid k v = updateBinding h i k v ∧
      ∀ j, j ≠ i → (scopeSet h sid k v)[j]? = h[j]?) ∧
    (ids.find? (boundIn h k) = none →
      scopeSet h sid k v = updateBinding h sid k v ∧
      ∀ j, j ≠ sid → (scopeSet h sid k v)[j]? = h[j]?) ∧
    (scopeDefine h sid k v = updateBinding h sid k v) := by
  have hlen := chain_length_le h sid ids hwf hc
  have hspec := scopeSetFrom_spec h k v sid ids hc (sid + 1) hlen
  refine ⟨?_, ?_, rfl⟩
  · intro i hfind
    have heq : scopeSet h sid k v = updateBinding h i k v := by
      unfold scopeSet
      rw [hspec, hfind]
      rfl
    exact ⟨heq, fun j hj => heq ▸ updateBinding_other h i k v j hj⟩
  · intro hfind
    have heq : scopeSet h sid k v = updateBinding h sid k v := by
      unfold scopeSet
      rw [hspec, hfind]
      rfl
    exact ⟨heq, fun j hj => heq ▸ updateBinding_other h sid k v j hj⟩

/-- Witness for C4 on a concrete two-frame chain: frame 0 is the global
scope binding `k = 7`, frame 1 is a child binding nothing; `set` from
the child updates the global frame; `define` from the child binds
locally. -/
theorem scope_python_semantics_witness :
    scopeSet [⟨none, [(7, Value.int 1)]⟩, ⟨some 0, []⟩] 1 7 (Value.int 2) =
      [⟨none, [(7, Value.int 2)]⟩, ⟨some 0, []⟩] ∧
    scopeDefine [⟨none, [(7, Value.int 1)]⟩, ⟨some 0, []⟩] 1 7 (Value.int 2) =
      [⟨none, [(7, Value.int 1)]⟩, ⟨some 0, [(7, Value.int 2)]⟩] := by
  have hwf : ScopeWF [⟨none, [(7, Value.int 1)]⟩, ⟨some 0, []⟩] := by
    intro i fr hget p hpar
    match i, hget with
    | 0, hget =>
      simp at hget
      rw [← hget] at hpar
      simp at hpar
    | 1, hget =>
      simp at hget
      rw [← hget] at hpar
      simp at hpar
      omega
  have hc : IsChain [⟨none, [(7, Value.int 1)]⟩, ⟨some 0, []⟩] 1 [1, 0] := by
    refine IsChain.cons 1 ⟨some 0, []⟩ 0 [0] (by rfl) rfl ?_
    exact IsChain.last 0 ⟨none, [(7, Value.int 1)]⟩ (by rfl) rfl
  have h := scope_python_semantics
    [⟨none, [(7, Value.int 1)]⟩, ⟨some 0, []⟩] 1 7 (Value.int 2) [1, 0] hwf hc
  have h1 := (h.1 0 (by decide)).1
  refine ⟨?_, ?_⟩
  · rw [h1]; decide
  · have := h.2.2
    rw [this]; decide

end FineScript

namespace FineScript

/-! ## Lexer (src/src/lexer.cpp, src/include/finescript/token.h)

The streaming tokenizer.  `TokenType` lists every enumerator of
token.h, including `NullCoalesce`, `FalsyCoalesce` and `KeyName` which
the header declares.  The lexer state carries the position, location,
nesting depth, interpolation state and pending-whitespace flag of the
`Lexer` class; the peek cache is not needed here.  Loops take fuel,
consumed only at a recursive step, so a scan that takes no step is
independent of the fuel; fuel exhaustion is `outOfFuel`, distinct from
a lexer `throw`. -/

inductive TokenType where
  | intLiteral | floatLiteral | stringLiteral
  | stringInterpStart | stringInterpMiddle | stringInterpEnd
  | symbolLiteral | boolTrue | boolFalse | nilLiteral
  | nameTok
  | leftBrace | rightBrace | leftParen | rightParen
  | leftBracket | rightBracket
  | dot | semicolon | newline
  | plus | minus | star | slash | percent
  | less | greater | lessEqual | greaterEqual
  | equalEqual | bangEqual | dotDot | dotDotEqual
  | andKw | orKw | notKw | tilde
  | nullCoalesce | falsyCoalesce | keyName
  | doKw | endKw | ifKw | elifKw | elseKw | forKw | inKw | whileKw
  | matchKw | onKw | fnKw | setKw | letKw | returnKw | sourceKw
  | underscore
  | eofTok
deriving Repr, DecidableEq

structure SourceLocation where
  fileId : Nat
  line : Nat
  column : Nat
deriving Repr, DecidableEq

/-- A token; `floatValue` (the `stod` of the text) is not modelled —
the digits remain available in `text`. -/
structure Token where
  type : TokenType
  text : String
  location : SourceLocation
  intValue : Int := 0
  hasLeadingSpace : Bool := false
deriving Repr, DecidableEq

structure LexState where
  source : List Char
  pos : Nat := 0
  fileId : Nat := 0
  line : Nat := 1
  column : Nat := 1
  nestingDepth : Nat := 0
  inString : Bool := false
  interpBraceDepth : Nat := 0
  lastWasSpace : Bool := true
deriving Repr, DecidableEq

inductive LexResult where
  | tok (t : Token) (st : LexState)
  | err (msg : String)
  | outOfFuel
deriving Repr, DecidableEq

/-- `Lexer::current` (lexer.cpp:95-97): `'\0'` past the end. -/
def LexState.current (st : LexState) : Char :=
  (st.source.get? st.pos).getD (Char.ofNat 0)

/-- `Lexer::peekChar` (lexer.cpp:99-101). -/
def LexState.peekChar (st : LexState) : Char :=
  (st.source.get? (st.pos + 1)).getD (Char.ofNat 0)

/-- `Lexer::isAtEnd` (lexer.cpp:128-130). -/
def LexState.isAtEnd (st : LexState) : Bool :=
  st.source.length ≤ st.pos

/-- `Lexer::advance` (lexer.cpp:108-118). -/
def LexState.advance (st : LexState) : Char × LexState :=
  let c := st.current
  if c = '\n' then
    (c, { st with pos := st.pos + 1, line := st.line + 1, column := 1 })
  else
    (c, { st with pos := st.pos + 1, column := st.column + 1 })

/-- `Lexer::loc` (lexer.cpp:132-134). -/
def LexState.loc (st : LexState) : SourceLocation :=
  ⟨st.fileId, st.line, st.column⟩

/-- `Lexer::makeToken` (lexer.cpp:136-143): `hasLeadingSpace` is read
from the lexer's current `lastWasSpace_`. -/
def makeToken (st : LexState) (type : TokenType) (text : String)
    (location : SourceLocation) : Token :=
  { type := type, text := text, location := location,
    hasLeadingSpace := st.lastWasSpace }

/-- Skip to end of line (the line-comment loop of
`skipWhitespaceAndComments`, lexer.cpp:151-153). -/
def skipToEol (fuel : Nat) (st : LexState) : Option LexState :=
  if st.isAtEnd then some st
  else if st.current = '\n' then some st
  else
    match fuel with
    | 0 => none
    | fuel+1 => skipToEol fuel (st.advance).2

/-- `Lexer::skipWhitespaceAndComments` (lexer.cpp:145-158). -/
def skipWS (fuel : Nat) (st : LexState) : Option LexState :=
  if st.isAtEnd then some st
  else
    let c := st.current
    if c = ' ' ∨ c = '\t' ∨ c = '\r' then
      match fuel with
      | 0 => none
      | fuel+1 => skipWS fuel ({ st with lastWasSpace := true }).advance.2
    else if c = '#' then
      match fuel with
      | 0 => none
      | fuel+1 =>
        match skipToEol fuel st with
        | some st' => skipWS fuel st'
        | none => none
    else some st

/-- `Lexer::classifyKeyword` (lexer.cpp:160-184). -/
def classifyKeyword (text : String) : TokenType :=
  if text = "do" then .doKw
  else if text = "end" then .endKw
  else if text = "if" then .ifKw
  else if text = "elif" then .elifKw
  else if text = "else" then .elseKw
  else if text = "for" then .forKw
  else if text = "in" then .inKw
  else if text = "while" then .whileKw
  else if text = "match" then .matchKw
  else if text = "on" then .onKw
  else if text = "fn" then .fnKw
  else if text = "set" then .setKw
  else if text = "let" then .letKw
  else if text = "return" then .returnKw
  else if text = "source" then .sourceKw
  else if text = "true" then .boolTrue
  else if text = "false" then .boolFalse
  else if text = "nil" then .nilLiteral
  else if text = "and" then .andKw
  else if text = "or" then .orKw
  else if text = "not" then .notKw
  else if text = "_" then .underscore
  else .nameTok

/-- `isIdentStart` (lexer.cpp:186-188); `std::isalpha` in the default
locale accepts exactly the ASCII letters. -/
def isIdentStart (c : Char) : Bool :=
  c.isAlpha || c = '_'

/-- `isIdentChar` (lexer.cpp:190-192). -/
def isIdentChar (c : Char) : Bool :=
  c.isAlphanum || c = '_'

/-- `source_.substr(start, pos - start)`. -/
def substrOf (src : List Char) (start stop : Nat) : String :=
  ⟨(src.drop start).take (stop - start)⟩

/-- The digit-consuming loops of `Lexer::scanNumber`. -/
def eatDigits (fuel : Nat) (st : LexState) : Option LexState :=
  if ¬ st.isAtEnd ∧ (st.current).isDigit then
    match fuel with
    | 0 => none
    | fuel+1 => eatDigits fuel (st.advance).2
  else some st

/-- `Lexer::scanNumber` (lexer.cpp:194-221).  `stoll` on an unsigned
digit string is `String.toNat?`; the float payload (`stod`) is not
modelled. -/
def scanNumber (fuel : Nat) (st : LexState) (start : Nat) : LexResult :=
  let startLoc := st.loc
  match eatDigits fuel st with
  | none => .outOfFuel
  | some st1 =>
    let withFrac :=
      if st1.current = '.' ∧ st1.peekChar ≠ '.' then
        some true
      else some false
    match withFrac with
    | some true =>
      match eatDigits fuel (st1.advance).2 with
      | none => .outOfFuel
      | some st2 =>
        let text := substrOf st2.source start st2.pos
        .tok (makeToken st2 .floatLiteral text startLoc) st2
    | _ =>
      let text := substrOf st1.source start st1.pos
      let t := makeToken st1 .intLiteral text startLoc
      .tok { t with intValue := ((text.toNat?).getD 0 : Int) } st1

/-- The identifier-consuming loop of `scanName`/`scanSymbolLiteral`. -/
def eatIdent (fuel : Nat) (st : LexState) : Option LexState :=
  if ¬ st.isAtEnd ∧ isIdentChar st.current then
    match fuel with
    | 0 => none
    | fuel+1 => eatIdent fuel (st.advance).2
  else some st

/-- `Lexer::scanName` (lexer.cpp:223-234). -/
def scanName (fuel : Nat) (st : LexState) (start : Nat) : LexResult :=
  let startLoc := st.loc
  match eatIdent fuel st with
  | none => .outOfFuel
  | some st1 =>
    let text := substrOf st1.source start st1.pos
    .tok (makeToken st1 (classifyKeyword text) text startLoc) st1

/-- `Lexer::scanSymbolLiteral` (lexer.cpp:236-246). -/
def scanSymbolLiteral (fuel : Nat) (st : LexState) : LexResult :=
  let startLoc := st.loc
  let st1 := (st.advance).2
  let nameStart := st1.pos
  match eatIdent fuel st1 with
  | none => .outOfFuel
  | some st2 =>
    let name := substrOf st2.source nameStart st2.pos
    .tok (makeToken st2 .symbolLiteral name startLoc) st2

/-- `processEscapes` (lexer.cpp:249-270). -/
def processEscapes : List Char → List Char
  | [] => []
  | c :: rest =>
    if c = '\\' then
      match rest with
      | [] => ['\\']
      | e :: rest' =>
        (if e = 'n' then ['\n']
         else if e = 't' then ['\t']
         else if e = 'r' then ['\r']
         else if e = '\\' then ['\\']
         else if e = '"' then ['"']
         else if e = Char.ofNat 123 then [Char.ofNat 123]
         else if e = Char.ofNat 125 then [Char.ofNat 125]
         else ['\\', e]) ++ processEscapes rest'
    else c :: processEscapes rest

/-- The body loop shared by `scanString` and `scanStringContinuation`:
accumulate literal characters until `"`, an unescaped `{`, or the end
of input.  Returns the accumulated raw text, whether a `{` was hit,
and the state (positioned after the `{` when one was hit). -/
def eatStringBody (fuel : Nat) (st : LexState) (acc : List Char) :
    Option (List Char × Bool × LexState) :=
  if ¬ st.isAtEnd ∧ st.current ≠ '"' then
    if st.current = '\\' then
      match fuel with
      | 0 => none
      | fuel+1 =>
        let (c1, st1) := st.advance
        if ¬ st1.isAtEnd then
          let (c2, st2) := st1.advance
          eatStringBody fuel st2 (acc ++ [c1, c2])
        else
          eatStringBody fuel st1 (acc ++ [c1])
    else if st.current = Char.ofNat 123 then
      some (acc, true, (st.advance).2)
    else
      match fuel with
      | 0 => none
      | fuel+1 => eatStringBody fuel (st.advance).2 (acc ++ [st.current])
  else some (acc, false, st)

/-- `Lexer::scanString` (lexer.cpp:272-302). -/
def scanString (fuel : Nat) (st : LexState) : LexResult :=
  let startLoc := st.loc
  let st1 := (st.advance).2
  match eatStringBody fuel st1 [] with
  | none => .outOfFuel
  | some (text, hitBrace, st2) =>
    if hitBrace then
      let st3 := { st2 with inString := true, interpBraceDepth := 1 }
      .tok (makeToken st3 .stringInterpStart ⟨processEscapes text⟩ startLoc) st3
    else if st2.isAtEnd then
      .err "Unterminated string literal"
    else
      let st3 := (st2.advance).2
      .tok (makeToken st3 .stringLiteral ⟨processEscapes text⟩ startLoc) st3

/-- `Lexer::scanStringContinuation` (lexer.cpp:304-334). -/
def scanStringContinuation (fuel : Nat) (st : LexState) : LexResult :=
  let startLoc := st.loc
  match eatStringBody fuel st [] with
  | none => .outOfFuel
  | some (text, hitBrace, st2) =>
    if hitBrace then
      let st3 := { st2 with interpBraceDepth := 1 }
      .tok (makeToken st3 .stringInterpMiddle ⟨processEscapes text⟩ startLoc) st3
    else if st2.isAtEnd then
      .err "Unterminated string literal"
    else
      let st3 := { (st2.advance).2 with inString := false }
      .tok (makeToken st3 .stringInterpEnd ⟨processEscapes text⟩ startLoc) st3

/-- The consecutive-newline collapsing loop of `scanToken`
(lexer.cpp:361-365). -/
def collapseNewlines (fuel : Nat) (st : LexState) : Option LexState :=
  if ¬ st.isAtEnd ∧ st.current = '\n' then
    match fuel with
    | 0 => none
    | fuel+1 =>
      match skipWS fuel (st.advance).2 with
      | some st' => collapseNewlines fuel st'
      | none => none
  else some st

/-- `Lexer::scanToken` (lexer.cpp:336-497), the token state machine.
Faithful to the source as it stands: the `switch` covers `{ } ( ) [ ]
; + - * / % . < > = ! ~`, where `=` not followed by `=` and `!` not
followed by `=` throw, and every other character — including `?` —
falls to the `default:` throw.  No case emits `KeyName`,
`NullCoalesce` or `FalsyCoalesce`. -/
def scanToken (fuel : Nat) (st : LexState) : LexResult :=
  if st.inString ∧ st.interpBraceDepth = 0 then
    scanStringContinuation fuel st
  else
    match skipWS fuel st with
    | none => .outOfFuel
    | some st =>
      if st.isAtEnd then .tok (makeToken st .eofTok "" st.loc) st
      else
        let startLoc := st.loc
        let c := st.current
        if c = '\n' then
          let st := { (st.advance).2 with lastWasSpace := true }
          if 0 < st.nestingDepth then
            match fuel with
            | 0 => .outOfFuel
            | fuel+1 => scanToken fuel st
          else
            match skipWS fuel st with
            | none => .outOfFuel
            | some st =>
              match collapseNewlines fuel st with
              | none => .outOfFuel
              | some st => .tok (makeToken st .newline "\\n" startLoc) st
        else
          let hadLeadingSpace := st.lastWasSpace
          let st := { st with lastWasSpace := false }
          if c.isDigit then scanNumber fuel st st.pos
          else if isIdentStart c then scanName fuel st st.pos
          else if c = '"' then scanString fuel st
          else if c = ':' ∧ ¬ st.isAtEnd ∧ isIdentStart st.peekChar then
            scanSymbolLiteral fuel st
          else
            let st := { st with lastWasSpace := hadLeadingSpace }
            let st := (st.advance).2
            if c = Char.ofNat 123 then
              if st.inString then
                .tok (makeToken { st with interpBraceDepth := st.interpBraceDepth + 1 }
                  .leftBrace "\x7b" startLoc)
                  { st with interpBraceDepth := st.interpBraceDepth + 1 }
              else
                .tok (makeToken { st with nestingDepth := st.nestingDepth + 1 }
                  .leftBrace "\x7b" startLoc)
                  { st with nestingDepth := st.nestingDepth + 1 }
            else if c = Char.ofNat 125 then
              if st.inString then
                let st := { st with interpBraceDepth := st.interpBraceDepth - 1 }
                if st.interpBraceDepth = 0 then
                  scanStringContinuation fuel st
                else .tok (makeToken st .rightBrace "\x7d" startLoc) st
              else
                let st := if 0 < st.nestingDepth then
                    { st with nestingDepth := st.nestingDepth - 1 } else st
                .tok (makeToken st .rightBrace "\x7d" startLoc) st
            else if c = '(' then
              let st := { st with nestingDepth := st.nestingDepth + 1 }
              .tok (makeToken st .leftParen "(" startLoc) st
            else if c = ')' then
              let st := if 0 < st.nestingDepth then
                  { st with nestingDepth := st.nestingDepth - 1 } else st
              .tok (makeToken st .rightParen ")" startLoc) st
            else if c = '[' then
              let st := { st with nestingDepth := st.nestingDepth + 1 }
              .tok (makeToken st .leftBracket "[" startLoc) st
            else if c = ']' then
              let st := if 0 < st.nestingDepth then
                  { st with nestingDepth := st.nestingDepth - 1 } else st
              .tok (makeToken st .rightBracket "]" startLoc) st
            else if c = ';' then .tok (makeToken st .semicolon ";" startLoc) st
            else if c = '+' then .tok (makeToken st .plus "+" startLoc) st
            else if c = '-' then .tok (makeToken st .minus "-" startLoc) st
            else if c = '*' then .tok (makeToken st .star "*" startLoc) st
            else if c = '/' then .tok (makeToken st .slash "/" startLoc) st
            else if c = '%' then .tok (makeToken st .percent "%" startLoc) st
            else if c = '.' then
              if st.current = '.' then
                let st := (st.advance).2
                if st.current = '=' then
                  let st := (st.advance).2
                  .tok (makeToken st .dotDotEqual "..=" startLoc) st
                else .tok (makeToken st .dotDot ".." startLoc) st
              else .tok (makeToken st .dot "." startLoc) st
            else if c = '<' then
              if st.current = '=' then
                let st := (st.advance).2
                .tok (makeToken st .lessEqual "<=" startLoc) st
              else .tok (makeToken st .less "<" startLoc) st
            else if c = '>' then
              if st.current = '=' then
                let st := (st.advance).2
                .tok (makeToken st .greaterEqual ">=" startLoc) st
              else .tok (makeToken st .greater ">" startLoc) st
            else if c = '=' then
              if st.current = '=' then
                let st := (st.advance).2
                .tok (makeToken st .equalEqual "==" startLoc) st
              else .err "Unexpected '=' — did you mean '=='?"
            else if c = '!' then
              if st.current = '=' then
                let st := (st.advance).2
                .tok (makeToken st .bangEqual "!=" startLoc) st
              else .err "Unexpected '!' — did you mean '!='?"
            else if c = '~' then .tok (makeToken st .tilde "~" startLoc) st
            else .err ("Unexpected character: '" ++ String.singleton c ++ "'")

/-- A lexer freshly constructed on a source string (lexer.cpp:67-68). -/
def initLexer (s : String) : LexState :=
  { source := s.data }

end FineScript

namespace FineScript

/-- C1 (code behavior at the failing input): scanning `=name` — the
form the spec documents as producing a `KeyName` token with payload
`name`, which the repository's own tests
(test_lexer.cpp, "Lexer KeyName token") assert — instead takes the `=`
case of the `switch`, finds that the next character is not `=`, and
throws.  The `KeyName` enumerator exists in token.h and the parser
consumes it, but no lexer path emits it. -/
theorem lexer_keyname_code_behavior :
    scanToken 20 (initLexer "=name") =
      .err "Unexpected '=' — did you mean '=='?" ∧
    scanToken 20 (initLexer "=foo") =
      .err "Unexpected '=' — did you mean '=='?" := by
  constructor <;> decide

/-- C3 (code behavior at the failing inputs): a lone `?` is indeed
rejected, but `??` and `?:` are rejected as well — scanning each hits
the `default:` throw on the first `?`, although token.h declares
`NullCoalesce`/`FalsyCoalesce`, the parser consumes them, and the
repository's tests (test_lexer.cpp, "Lexer null coalesce ??",
"Lexer falsy coalesce ?:") assert they are produced. -/
theorem lexer_coalesce_code_behavior :
    scanToken 20 (initLexer "?") = .err "Unexpected character: '?'" ∧
    scanToken 20 (initLexer "??") = .err "Unexpected character: '?'" ∧
    scanToken 20 (initLexer "?:") = .err "Unexpected character: '?'" := by
  refine ⟨by decide, by decide, by decide⟩

end FineScript

namespace FineScript

/-! ## AST (src/include/finescript/ast.h)

`AstNode` is a single struct with a kind tag and per-kind payload
fields; here each kind becomes a constructor carrying exactly the
payload the evaluator reads for it.  A `Call` node's children are
`[verb, positional args…, named-arg values…]` with the named-arg keys
in `nameParts`; the constructor keeps the three groups separate, with
`namedKeys.length = namedVals.length`, matching the layout arithmetic
of `Evaluator::evalCall`.  An `If` node keeps the flattened
condition/body children plus `hasElse`, as in the source.  An `Fn`
node carries name (`stringValue`), parameter names (`nameParts`),
required-parameter count (`intValue`, always a count), body
(`children[0]`), default expressions (`children[1..]`) and the
pipe-delimited rest/kwargs encoding (`op`). -/

inductive Ast where
  | intLit (i : Int)
  | floatLit (bits : Nat)
  | stringLit (s : String)
  | stringInterp (parts : List Ast)
  | symbolLit (name : String)
  | boolLit (b : Bool)
  | nilLit
  | arrayLit (elems : List Ast)
  | nameA (s : String)
  | dottedName (base : Ast) (fields : List String)
  | call (verb : Ast) (posArgs : List Ast) (namedKeys : List String)
      (namedVals : List Ast)
  | infixA (op : String) (l r : Ast)
  | unaryNot (e : Ast)
  | unaryNegate (e : Ast)
  | block (stmts : List Ast)
  | index (target idx : Ast)
  | refA (e : Ast)
  | mapLit (keys : List String) (vals : List Ast)
  | setA (target : List String) (rhs : Ast)
  | letA (n : String) (rhs : Ast)
  | fn (name : String) (params : List String) (numRequired : Nat)
      (body : Ast) (defaults : List Ast) (variadic : String)
  | ifA (condsBodies : List Ast) (hasElse : Bool)
  | forA (var : String) (iterable : Ast) (body : Ast)
  | whileA (cond body : Ast)
  | matchA (scrutinee : Ast) (arms : List Ast)
  | onA (eventName : String) (body : Ast)
  | returnA (val : Option Ast)
  | sourceA (file : Ast)
deriving Repr

/-- `Closure` (value.h:17-25).  `body` and `defaultExprs` are held by
value (the `astRoot` lifetime handle is thereby subsumed);
`capturedScope` is a scope-heap id. -/
structure Closure where
  paramIds : List Nat
  numRequired : Nat := 0
  defaultExprs : List Ast := []
  body : Ast
  capturedScope : Nat
  name : String := ""
  hasRestParam : Bool := false
  restParamId : Nat := 0
  hasKwargsParam : Bool := false
  kwargsParamId : Nat := 0
deriving Repr

/-- `ExecutionContext` as the evaluator consumes it (§6.2): the
context scope id and the `on`-populated event-handler list. -/
structure ExecCtx where
  scopeId : Nat
  eventHandlers : List (Nat × Value)
deriving Repr

/-- The mutable world of a run: the scope arena, the shared-ownership
heaps behind `shared_ptr` payloads, the engine's interner (mutated by
`intern` calls during evaluation), and the optional execution
context. -/
structure Store where
  scopes : List Frame
  arrays : List (List Value)
  maps : List MapData
  closures : List Closure
  interner : DefaultInterner
  ctx : Option ExecCtx
deriving Repr

def Store.internS (σ : Store) (s : String) : Nat × Store :=
  let (id, it) := σ.interner.intern s
  (id, { σ with interner := it })

def Store.getArray (σ : Store) (r : Nat) : Option (List Value) :=
  σ.arrays.get? r

def Store.setArray (σ : Store) (r : Nat) (elems : List Value) : Store :=
  { σ with arrays := σ.arrays.set r elems }

def Store.allocArray (σ : Store) (elems : List Value) : Value × Store :=
  (Value.array σ.arrays.length, { σ with arrays := σ.arrays ++ [elems] })

def Store.getMap (σ : Store) (r : Nat) : Option MapData :=
  σ.maps.get? r

def Store.setMap (σ : Store) (r : Nat) (m : MapData) : Store :=
  { σ with maps := σ.maps.set r m }

def Store.allocMap (σ : Store) : Value × Store :=
  (Value.map σ.maps.length, { σ with maps := σ.maps ++ [⟨[], []⟩] })

def Store.getClosure (σ : Store) (r : Nat) : Option Closure :=
  σ.closures.get? r

def Store.allocClosure (σ : Store) (c : Closure) : Value × Store :=
  (Value.closure σ.closures.length, { σ with closures := σ.closures ++ [c] })

/-- `scope->createChild()` inside the store. -/
def Store.createChild (σ : Store) (sid : Nat) : Nat × Store :=
  (σ.scopes.length, { σ with scopes := σ.scopes ++ [⟨some sid, []⟩] })

def Store.defineIn (σ : Store) (sid k : Nat) (v : Value) : Store :=
  { σ with scopes := scopeDefine σ.scopes sid k v }

/-- The pre-interned method/`self` symbols the `Evaluator` constructor
computes (`Evaluator::preInternSymbols`, evaluator.cpp:21-53). -/
structure EvalSyms where
  sym_get : Nat
  sym_set : Nat
  sym_has : Nat
  sym_remove : Nat
  sym_keys : Nat
  sym_values : Nat
  sym_length : Nat
  sym_push : Nat
  sym_pop : Nat
  sym_setMethod : Nat
  sym_slice : Nat
  sym_contains : Nat
  sym_sort : Nat
  sym_map : Nat
  sym_filter : Nat
  sym_foreach : Nat
  sym_insert : Nat
  sym_delete : Nat
  sym_replace : Nat
  sym_split : Nat
  sym_substr : Nat
  sym_find : Nat
  sym_upper : Nat
  sym_lower : Nat
  sym_trim : Nat
  sym_starts_with : Nat
  sym_ends_with : Nat
  sym_char_at : Nat
  sym_sort_by : Nat
  sym_self : Nat
deriving Repr, DecidableEq

/-- `Evaluator::preInternSymbols` (evaluator.cpp:21-53), in source
order. -/
def preInternSymbols (it : DefaultInterner) : EvalSyms × DefaultInterner :=
  let (s1, it) := it.intern "get"
  let (s2, it) := it.intern "set"
  let (s3, it) := it.intern "has"
  let (s4, it) := it.intern "remove"
  let (s5, it) := it.intern "keys"
  let (s6, it) := it.intern "values"
  let (s7, it) := it.intern "length"
  let (s8, it) := it.intern "push"
  let (s9, it) := it.intern "pop"
  let (s10, it) := it.intern "setMethod"
  let (s11, it) := it.intern "slice"
  let (s12, it) := it.intern "contains"
  let (s13, it) := it.intern "sort"
  let (s14, it) := it.intern "map"
  let (s15, it) := it.intern "filter"
  let (s16, it) := it.intern "foreach"
  let (s17, it) := it.intern "insert"
  let (s18, it) := it.intern "delete"
  let (s19, it) := it.intern "replace"
  let (s20, it) := it.intern "split"
  let (s21, it) := it.intern "substr"
  let (s22, it) := it.intern "find"
  let (s23, it) := it.intern "upper"
  let (s24, it) := it.intern "lower"
  let (s25, it) := it.intern "trim"
  let (s26, it) := it.intern "starts_with"
  let (s27, it) := it.intern "ends_with"
  let (s28, it) := it.intern "char_at"
  let (s29, it) := it.intern "sort_by"
  let (s30, it) := it.intern "self"
  (⟨s1, s2, s3, s4, s5, s6, s7, s8, s9, s10, s11, s12, s13, s14, s15,
    s16, s17, s18, s19, s20, s21, s22, s23, s24, s25, s26, s27, s28,
    s29, s30⟩, it)

/-- `Evaluator::isAutoMethod` (evaluator.cpp:55-59): a closure whose
first parameter is the `self` symbol. -/
def isAutoMethod (E : EvalSyms) (σ : Store) (val : Value) : Bool :=
  match val with
  | .closure r =>
    match σ.getClosure r with
    | some c => ¬ c.paramIds.isEmpty ∧ c.paramIds.head? = some E.sym_self
    | none => false
  | _ => false

/-- The store-then-conditionally-mark step that appears verbatim at
the three map-store sites — `evalMapLit` (evaluator.cpp:463-467),
dotted `evalSet` (evaluator.cpp:507-511) and the built-in `map.set`
(evaluator.cpp:887-891): `map.set(key, v); if (isAutoMethod(v))
map.markMethod(key);`. -/
def autoMethodStore (E : EvalSyms) (σ : Store) (m : MapData) (key : Nat)
    (v : Value) : MapData :=
  let m := m.set key v
  if isAutoMethod E σ v then m.markMethod key else m

/-- `Evaluator::isBuiltinMapMethod` (evaluator.cpp:849-853). -/
def isBuiltinMapMethod (E : EvalSyms) (sym : Nat) : Bool :=
  sym = E.sym_get ∨ sym = E.sym_set ∨ sym = E.sym_has ∨
  sym = E.sym_remove ∨ sym = E.sym_keys ∨ sym = E.sym_values ∨
  sym = E.sym_setMethod

/-- `Evaluator::isBuiltinArrayMethod` (evaluator.cpp:855-860). -/
def isBuiltinArrayMethod (E : EvalSyms) (sym : Nat) : Bool :=
  sym = E.sym_length ∨ sym = E.sym_push ∨ sym = E.sym_pop ∨
  sym = E.sym_get ∨ sym = E.sym_set ∨ sym = E.sym_slice ∨
  sym = E.sym_contains ∨ sym = E.sym_sort ∨ sym = E.sym_sort_by ∨
  sym = E.sym_map ∨ sym = E.sym_filter ∨ sym = E.sym_foreach

/-- `Evaluator::isBuiltinStringMethod` (evaluator.cpp:862-869). -/
def isBuiltinStringMethod (E : EvalSyms) (sym : Nat) : Bool :=
  sym = E.sym_length ∨ sym = E.sym_get ∨ sym = E.sym_set ∨
  sym = E.sym_char_at ∨ sym = E.sym_insert ∨ sym = E.sym_delete ∨
  sym = E.sym_replace ∨ sym = E.sym_find ∨ sym = E.sym_contains ∨
  sym = E.sym_substr ∨ sym = E.sym_slice ∨ sym = E.sym_split ∨
  sym = E.sym_upper ∨ sym = E.sym_lower ∨ sym = E.sym_trim ∨
  sym = E.sym_starts_with ∨ sym = E.sym_ends_with ∨ sym = E.sym_push

end FineScript

namespace FineScript

/-! ## Value equality, truthiness, display

`Value::operator==` (value.cpp:212-243): content comparison for
primitives and strings, recursive elementwise comparison for arrays
(through the heap — hence fuel, since user-created cycles would make
the C++ recursion run forever too), and identity (same heap slot = same
`shared_ptr` target) for maps, closures and native functions.  Float
equality is modelled as bit equality; no claim exercises NaN or signed
zeros. -/

mutual

def valueEq (fuel : Nat) (σ : Store) : Value → Value → Bool
  | .nil, .nil => true
  | .bool a, .bool b => a = b
  | .int a, .int b => a = b
  | .float a, .float b => a = b
  | .symbol a, .symbol b => a = b
  | .str a, .str b => a = b
  | .array a, .array b =>
    (match fuel with
     | 0 => false
     | fuel+1 =>
       match σ.getArray a, σ.getArray b with
       | some xs, some ys =>
         xs.length = ys.length ∧ valueEqList fuel σ xs ys
       | _, _ => false)
  | .map a, .map b => a = b
  | .closure a, .closure b => a = b
  | .native a, .native b => a = b
  | _, _ => false

def valueEqList (fuel : Nat) (σ : Store) : List Value → List Value → Bool
  | [], [] => true
  | x :: xs, y :: ys => valueEq fuel σ x y ∧ valueEqList fuel σ xs ys
  | _, _ => false

end

/-! `Value::toString` (value.cpp:263-298) with an interner available
(the evaluator always passes one).  Fuel guards recursion through
array heap cells; float rendering (`ostringstream` on a double) is not
modelled and shows a placeholder. -/
mutual

def toStringV (fuel : Nat) (σ : Store) : Value → String
  | .nil => "nil"
  | .bool b => if b then "true" else "false"
  | .int i => toString i
  | .float _ => "<unmodeled-float>"
  | .symbol id => ":" ++ ((σ.interner.lookup id).getD "")
  | .str s => s
  | .array r =>
    (match fuel with
     | 0 => "[…]"
     | fuel+1 =>
       match σ.getArray r with
       | some xs => "[" ++ toStringList fuel σ xs ++ "]"
       | none => "[]")
  | .map _ => "<map>"
  | .closure r =>
    (match σ.getClosure r with
     | some c => if c.name = "" then "<fn>" else "<fn:" ++ c.name ++ ">"
     | none => "<fn>")
  | .native _ => "<native-fn>"

def toStringList (fuel : Nat) (σ : Store) : List Value → String
  | [] => ""
  | [x] => toStringV fuel σ x
  | x :: xs => toStringV fuel σ x ++ " " ++ toStringList fuel σ xs

end

/-! ## Evaluation results

`ScriptError` and `ReturnSignal` as explicit outcomes.  `ret` carries
the store because a C++ exception does not roll mutations back;
`timeout` is fuel exhaustion (no counterpart in the source, which
simply keeps running). -/

inductive EvalResult (α : Type) where
  | ok (v : α) (σ : Store)
  | ret (v : Value) (σ : Store)
  | err (msg : String)
  | timeout
deriving Repr

/-- Sequencing that lets both `ScriptError` and `ReturnSignal`
propagate, as unwinding does in the source. -/
def EvalResult.andThen {α β : Type} (r : EvalResult α)
    (k : α → Store → EvalResult β) : EvalResult β :=
  match r with
  | .ok v σ => k v σ
  | .ret v σ => .ret v σ
  | .err m => .err m
  | .timeout => .timeout

def EvalResult.isRet {α : Type} : EvalResult α → Bool
  | .ret _ _ => true
  | _ => false

/-- The `evalIndex` dispatch on already-evaluated target and index
(`Evaluator::evalIndex`, evaluator.cpp:405-444). -/
def indexOp (σ : Store) (target index : Value) : EvalResult Value :=
  match target with
  | .array r =>
    if let .int i := index then
      match σ.getArray r with
      | some arr =>
        let idx := if i < 0 then i + arr.length else i
        if idx < 0 ∨ arr.length ≤ idx then
          .err ("Array index out of bounds: " ++ toString i)
        else
          match arr.get? idx.toNat with
          | some v => .ok v σ
          | none => .err ("Array index out of bounds: " ++ toString i)
      | none => .err "Array index out of bounds: <dangling>"
    else .err "Array index must be an integer"
  | .str s =>
    if let .int i := index then
      let idx := if i < 0 then i + s.length else i
      if idx < 0 ∨ (s.length : Int) ≤ idx then
        .err ("String index out of bounds: " ++ toString i)
      else
        match s.data.get? idx.toNat with
        | some c => .ok (.str (String.singleton c)) σ
        | none => .err ("String index out of bounds: " ++ toString i)
    else .err "String index must be an integer"
  | .map r =>
    if let .symbol k := index then
      match σ.getMap r with
      | some m => .ok (m.get k) σ
      | none => .ok .nil σ
    else .err "Map key must be a symbol"
  | _ => .err ("Cannot index " ++ target.typeName)

/-- The field-walking loop of `Evaluator::evalDottedName`
(evaluator.cpp:165-211): map fields (with the `keys`/`values`
shortcuts), `array.length`/`array.pop` (which mutates), and
`string.length`.  Interns each field name, as the source does. -/
def walkFields (E : EvalSyms) : List String → Value → Store → EvalResult Value
  | [], current, σ => .ok current σ
  | field :: rest, current, σ =>
    let (sym, σ) := σ.internS field
    match current with
    | .map r =>
      (match σ.getMap r with
       | some m =>
         if sym = E.sym_keys then
           let (arr, σ) := σ.allocArray (m.keys.map Value.symbol)
           walkFields E rest arr σ
         else if sym = E.sym_values then
           let (arr, σ) := σ.allocArray (m.keys.map m.get)
           walkFields E rest arr σ
         else walkFields E rest (m.get sym) σ
       | none => .err "Cannot access field on a dangling map")
    | .array r =>
      (match σ.getArray r with
       | some arr =>
         if sym = E.sym_length then
           walkFields E rest (.int arr.length) σ
         else if sym = E.sym_pop then
           (match arr.getLast? with
            | none => .err "Cannot pop from empty array"
            | some last =>
              walkFields E rest last (σ.setArray r arr.dropLast))
         else .err ("Cannot access field '" ++ field ++ "' on array")
       | none => .err "Cannot access field on a dangling array")
    | .str s =>
      if sym = E.sym_length then
        walkFields E rest (.int s.length) σ
      else .err ("Cannot access field '" ++ field ++ "' on string")
    | other => .err ("Cannot access field '" ++ field ++ "' on " ++ other.typeName)

end FineScript

namespace FineScript

/-- Two's-complement wrap of an `int64_t` result (spec §3.1: integer
arithmetic wraps). -/
def wrap64 (i : Int) : Int :=
  (i + 2 ^ 63) % 2 ^ 64 - 2 ^ 63

/-- `Evaluator::applyBinOp` (evaluator.cpp:1224-1332), in the source's
check order.  Branches whose results are IEEE doubles (`useFloat`
arithmetic/comparisons) and `%`-formatting (`formatMulti`,
format_util.cpp) are outside every claim and yield a distinguished
error instead of a float computation; numeric comparisons in the
source convert to `double` first, which agrees with the integer
comparison used here for all magnitudes below 2^53 (all modelled
uses). -/
def applyBinOp (fuel : Nat) (op : String) (left right : Value)
    (σ : Store) : EvalResult Value :=
  if op = ".." then
    match left, right with
    | .int a, .int b =>
      let (arr, σ) := σ.allocArray
        ((List.range (b - a).toNat).map (fun k => Value.int (a + k)))
      .ok arr σ
    | _, _ => .err "Range operands must be integers"
  else if op = "..=" then
    match left, right with
    | .int a, .int b =>
      let (arr, σ) := σ.allocArray
        ((List.range (b - a + 1).toNat).map (fun k => Value.int (a + k)))
      .ok arr σ
    | _, _ => .err "Range operands must be integers"
  else if op = "==" then .ok (.bool (valueEq fuel σ left right)) σ
  else if op = "!=" then .ok (.bool (¬ valueEq fuel σ left right)) σ
  else if op = "+" ∧ left.isString ∧ right.isString then
    match left, right with
    | .str a, .str b => .ok (.str (a ++ b)) σ
    | _, _ => .err "unreachable"
  else if op = "+" ∧ left.isArray ∧ right.isArray then
    match left, right with
    | .array a, .array b =>
      (match σ.getArray a, σ.getArray b with
       | some xs, some ys =>
         let (arr, σ) := σ.allocArray (xs ++ ys)
         .ok arr σ
       | _, _ => .err "unreachable")
    | _, _ => .err "unreachable"
  else if op = "%" ∧ left.isString then
    .err "<not modeled: printf-style string formatting>"
  else if left.isNumeric ∧ right.isNumeric ∧
      (op = "+" ∨ op = "-" ∨ op = "*" ∨ op = "/" ∨ op = "%" ∨
       op = "<" ∨ op = ">" ∨ op = "<=" ∨ op = ">=") then
    match left, right with
    | .int a, .int b =>
      if op = "+" then .ok (.int (wrap64 (a + b))) σ
      else if op = "-" then .ok (.int (wrap64 (a - b))) σ
      else if op = "*" then .ok (.int (wrap64 (a * b))) σ
      else if op = "/" then
        if b = 0 then .err "Division by zero" else .ok (.int (a.tdiv b)) σ
      else if op = "%" then
        if b = 0 then .err "Modulo by zero" else .ok (.int (a.tmod b)) σ
      else if op = "<" then .ok (.bool (a < b)) σ
      else if op = ">" then .ok (.bool (b < a)) σ
      else if op = "<=" then .ok (.bool (a ≤ b)) σ
      else .ok (.bool (b ≤ a)) σ
    | _, _ => .err "<not modeled: float arithmetic>"
  else if left.isString ∧ right.isString ∧
      (op = "<" ∨ op = ">" ∨ op = "<=" ∨ op = ">=") then
    match left, right with
    | .str a, .str b =>
      if op = "<" then .ok (.bool (a < b)) σ
      else if op = ">" then .ok (.bool (b < a)) σ
      else if op = "<=" then .ok (.bool (a ≤ b)) σ
      else .ok (.bool (b ≤ a)) σ
    | _, _ => .err "unreachable"
  else
    .err ("Cannot apply '" ++ op ++ "' to " ++ left.typeName ++
      " and " ++ right.typeName)

/-- The middle-fields walk of dotted `Evaluator::evalSet`
(evaluator.cpp:493-501): each intermediate must be a map. -/
def walkSetMiddle : List String → Value → Store → EvalResult Value
  | [], current, σ => .ok current σ
  | part :: rest, current, σ =>
    match current with
    | .map r =>
      let (sym, σ) := σ.internS part
      (match σ.getMap r with
       | some m => walkSetMiddle rest (m.get sym) σ
       | none => .err "dangling map")
    | other =>
      .err ("Cannot access field '" ++ part ++ "' on " ++ other.typeName)

/-- The receiver navigation of method calls (evaluator.cpp:239-247):
walk all but the last field; the source interns the field name before
the map check. -/
def navReceiver : List String → Value → Store → EvalResult Value
  | [], receiver, σ => .ok receiver σ
  | part :: rest, receiver, σ =>
    let (sym, σ) := σ.internS part
    match receiver with
    | .map r =>
      (match σ.getMap r with
       | some m => navReceiver rest (m.get sym) σ
       | none => .err "dangling map")
    | other =>
      .err ("Cannot access field '" ++ part ++ "' on " ++ other.typeName)

/-- `node.op.find('|')` splitting of the rest/kwargs encoding
(evaluator.cpp:546-565). -/
def firstPipeSplit (s : String) : Option (String × String) :=
  match s.data.findIdx? (fun c => c = '|') with
  | none => none
  | some i => some (⟨s.data.take i⟩, ⟨s.data.drop (i + 1)⟩)

/-- `Evaluator::dispatchBuiltinMethod` (evaluator.cpp:871-1220) for
the branches any claim can reach: all seven Map methods and the
non-callback Array methods.  The Array methods taking a script
callback (`sort`, `sort_by`, `map`, `filter`, `foreach` — `std::sort`
with an effectful comparator has no deterministic embedding) and the
String methods (byte-mutating operations on shared strings) are
outside every claim and yield a distinguished error.  The routing
predicates `isBuiltin*Method` above remain the source's full lists, so
those methods still dispatch here rather than to map fields. -/
def dispatchBuiltinMethod (E : EvalSyms) (fuel : Nat) (object : Value)
    (methodSym : Nat) (args : List Value) (σ : Store) : EvalResult Value :=
  match object with
  | .map mref =>
    (match σ.getMap mref with
     | none => .err "dangling map"
     | some m =>
       if methodSym = E.sym_get then
         match args.head? with
         | none => .err "map.get requires a key argument"
         | some (.symbol k) => .ok (m.get k) σ
         | some _ => .err "Map key must be a symbol"
       else if methodSym = E.sym_set then
         match args.get? 0, args.get? 1 with
         | some a0, some a1 =>
           (match a0 with
            | .symbol key =>
              .ok a1 (σ.setMap mref (autoMethodStore E σ m key a1))
            | _ => .err "Map key must be a symbol")
         | _, _ => .err "map.set requires key and value arguments"
       else if methodSym = E.sym_has then
         match args.head? with
         | none => .err "map.has requires a key argument"
         | some (.symbol k) => .ok (.bool (m.has k)) σ
         | some _ => .err "Map key must be a symbol"
       else if methodSym = E.sym_remove then
         match args.head? with
         | none => .err "map.remove requires a key argument"
         | some (.symbol k) =>
           let (removed, m') := m.remove k
           .ok (.bool removed) (σ.setMap mref m')
         | some _ => .err "Map key must be a symbol"
       else if methodSym = E.sym_keys then
         let (arr, σ) := σ.allocArray (m.keys.map Value.symbol)
         .ok arr σ
       else if methodSym = E.sym_values then
         let (arr, σ) := σ.allocArray (m.keys.map m.get)
         .ok arr σ
       else if methodSym = E.sym_setMethod then
         match args.get? 0, args.get? 1 with
         | some a0, some a1 =>
           (match a0 with
            | .symbol key => .ok a1 (σ.setMap mref (m.setMethod key a1))
            | _ => .err "Method name must be a symbol")
         | _, _ => .err "map.setMethod requires name and function arguments"
       else .err "Unknown built-in method")
  | .array aref =>
    (match σ.getArray aref with
     | none => .err "dangling array"
     | some arr =>
       if methodSym = E.sym_length then .ok (.int arr.length) σ
       else if methodSym = E.sym_push then
         let arr' := arr ++ args
         .ok (.int arr'.length) (σ.setArray aref arr')
       else if methodSym = E.sym_pop then
         match arr.getLast? with
         | none => .err "Cannot pop from empty array"
         | some last => .ok last (σ.setArray aref arr.dropLast)
       else if methodSym = E.sym_get then
         match args.head? with
         | none => .err "array.get requires an index"
         | some (.int i) =>
           let idx := if i < 0 then i + arr.length else i
           if idx < 0 ∨ (arr.length : Int) ≤ idx then
             .err "Array index out of bounds"
           else
             (match arr.get? idx.toNat with
              | some v => .ok v σ
              | none => .err "Array index out of bounds")
         | some _ => .err "Array index must be an integer"
       else if methodSym = E.sym_set then
         match args.get? 0, args.get? 1 with
         | some a0, some a1 =>
           (match a0 with
            | .int i =>
              let idx := if i < 0 then i + arr.length else i
              if idx < 0 ∨ (arr.length : Int) ≤ idx then
                .err "Array index out of bounds"
              else .ok a1 (σ.setArray aref (arr.set idx.toNat a1))
            | _ => .err "Array index must be an integer")
         | _, _ => .err "array.set requires index and value"
       else if methodSym = E.sym_slice then
         match args.head? with
         | none => .err "array.slice requires start index"
         | some (.int s) =>
           let e : Int :=
             match args.get? 1 with
             | some (.int e) => e
             | _ => arr.length
           let s := if s < 0 then s + arr.length else s
           let e := if e < 0 then e + arr.length else e
           let s := max 0 (min s (arr.length : Int))
           let e := max 0 (min e (arr.length : Int))
           let s := if e < s then e else s
           let (out, σ) :=
             σ.allocArray ((arr.drop s.toNat).take (e - s).toNat)
           .ok out σ
         | some _ => .err "Slice start must be an integer"
       else if methodSym = E.sym_contains then
         match args.head? with
         | none => .err "array.contains requires a value"
         | some v => .ok (.bool (arr.any (fun e => valueEq fuel σ e v))) σ
       else if methodSym = E.sym_sort ∨ methodSym = E.sym_sort_by ∨
           methodSym = E.sym_map ∨ methodSym = E.sym_filter ∨
           methodSym = E.sym_foreach then
         .err "<not modeled: array callback builtin>"
       else .err "Unknown built-in method")
  | .str _ => .err "<not modeled: string builtin method>"
  | _ => .err "Unknown built-in method"

end FineScript

namespace FineScript

/-- The named-argument search of `callClosureWithNamed`
(evaluator.cpp:796-805): find the first named argument whose name
matches the parameter, mark it used, and bind its value. -/
def findAndMarkNamed (pid : Nat) :
    List (Nat × Value × Bool) → Option (Value × List (Nat × Value × Bool))
  | [] => none
  | (n, v, used) :: rest =>
    if n = pid then some (v, (n, v, true) :: rest)
    else
      (findAndMarkNamed pid rest).map
        (fun out => (out.1, (n, v, used) :: out.2))

set_option maxHeartbeats 1600000

/-- The kwargs-map collection for native calls with named arguments
(evaluator.cpp:290-296 and 330-337): a fresh map receiving each named
argument by plain `set`. -/
def collectKwargsMap (σ : Store) (namedArgs : List (Nat × Value)) :
    Value × Store :=
  let (kwargsMap, σ) := σ.allocMap
  match kwargsMap with
  | .map kref =>
    let σ := namedArgs.foldl
      (fun σa kv =>
        match σa.getMap kref with
        | some km => σa.setMap kref (km.set kv.1 kv.2)
        | none => σa) σ
    (kwargsMap, σ)
  | _ => (kwargsMap, σ)

/-- The dotted-target tail of `Evaluator::evalSet`
(evaluator.cpp:483-512): look up the root, walk to the penultimate
map, store the last field with the auto-method rule. -/
def dottedSetStore (E : EvalSyms) (root : String) (restParts : List String)
    (val : Value) (sid : Nat) (σ : Store) : EvalResult Value :=
  let (rootSym, σ) := σ.internS root
  match scopeLookup σ.scopes sid rootSym with
  | none => .err ("Undefined variable '" ++ root ++ "'")
  | some rootVal =>
    (walkSetMiddle restParts.dropLast rootVal σ).andThen fun current σ =>
      match current with
      | .map mref =>
        let lastPart := restParts.getLast?.getD ""
        let (lastSym, σ) := σ.internS lastPart
        (match σ.getMap mref with
         | some m =>
           .ok val (σ.setMap mref (autoMethodStore E σ m lastSym val))
         | none => .err "dangling map")
      | other => .err ("Cannot set field on " ++ other.typeName)

/-- `Evaluator::evalFn` (evaluator.cpp:529-576): build the closure
record (parameters interned in order, then the pipe-delimited
rest/kwargs names), allocate it, and define named functions in the
current scope. -/
def makeClosureValue (nm : String) (params : List String)
    (numRequired : Nat) (body : Ast) (defaults : List Ast)
    (variadic : String) (sid : Nat) (σ : Store) : EvalResult Value :=
  let (paramIds, σ) := params.foldl
    (fun (acc : List Nat × Store) p =>
      let (id, σ) := acc.2.internS p
      (acc.1 ++ [id], σ)) ([], σ)
  let base : Closure :=
    { paramIds := paramIds, numRequired := numRequired,
      defaultExprs := defaults, body := body, capturedScope := sid,
      name := nm }
  let (clo, σ) :=
    if variadic = "" then (base, σ)
    else
      match firstPipeSplit variadic with
      | none =>
        let (rid, σ) := σ.internS variadic
        ({ base with hasRestParam := true, restParamId := rid }, σ)
      | some (restName, kwargsName) =>
        let (c, σ) :=
          if restName = "" then (base, σ)
          else
            let (rid, σ) := σ.internS restName
            ({ base with hasRestParam := true, restParamId := rid }, σ)
        if kwargsName = "" then (c, σ)
        else
          let (kid, σ) := σ.internS kwargsName
          ({ c with hasKwargsParam := true, kwargsParamId := kid }, σ)
  let (closureVal, σ) := σ.allocClosure clo
  if nm = "" then .ok closureVal σ
  else
    let (nameSym, σ) := σ.internS nm
    .ok closureVal (σ.defineIn sid nameSym closureVal)

/-- `Evaluator::evalOn` (evaluator.cpp:664-681). -/
def registerOnHandler (eventName : String) (body : Ast) (sid : Nat)
    (σ : Store) : EvalResult Value :=
  match σ.ctx with
  | none => .err "'on' requires an execution context"
  | some c =>
    let clo : Closure :=
      { paramIds := [], body := body, capturedScope := sid,
        name := "on:" ++ eventName }
    let (handlerVal, σ) := σ.allocClosure clo
    let (eventSym, σ) := σ.internS eventName
    .ok .nil { σ with
      ctx := some { c with
        eventHandlers := c.eventHandlers ++ [(eventSym, handlerVal)] } }

/-- The wildcard test of `Evaluator::evalMatch` (evaluator.cpp:648):
a `Name` pattern whose text is `_`. -/
def isWildcardPat : Ast → Bool
  | .nameA s => s = "_"
  | _ => false

set_option maxHeartbeats 1600000

/-! ## The evaluator (src/src/evaluator.cpp)

`eval` and its companions each consume one unit of fuel on entry and
pass the decremented fuel to everything they invoke, so recursion is
structural in the fuel; `timeout` marks exhaustion.  The one
exception: `evalForLoop` restores its own fuel across iterations
(recursing on the element list), so every iteration of a `for` body
runs with the same fuel — an iteration's meaning does not depend on
its position, which mirrors the source, where no fuel exists at
all. -/

mutual

def eval (E : EvalSyms) : Nat → Ast → Nat → Store → EvalResult Value
  | 0, _, _, _ => .timeout
  | fuel+1, ast, sid, σ =>
    match ast with
    | .intLit i => .ok (.int i) σ
    | .floatLit bits => .ok (.float bits) σ
    | .stringLit s => .ok (.str s) σ
    | .stringInterp parts =>
      (evalArgsList E fuel parts sid σ).andThen fun vs σ =>
        .ok (.str (vs.foldl (fun acc v => acc ++ toStringV fuel σ v) "")) σ
    | .symbolLit nm =>
      let (sym, σ) := σ.internS nm
      .ok (.symbol sym) σ
    | .boolLit b => .ok (.bool b) σ
    | .nilLit => .ok .nil σ
    | .arrayLit elems =>
      (evalArgsList E fuel elems sid σ).andThen fun vs σ =>
        let (arr, σ) := σ.allocArray vs
        .ok arr σ
    | .nameA s =>
      let (sym, σ) := σ.internS s
      (match scopeLookup σ.scopes sid sym with
       | some v => .ok v σ
       | none => .ok .nil σ)
    | .dottedName base fields =>
      (eval E fuel base sid σ).andThen fun current σ =>
        walkFields E fields current σ
    | .call verb posArgs namedKeys namedVals =>
      (match verb with
       | .dottedName base fields =>
         if fields.isEmpty then
           evalPrefixCall E fuel (.dottedName base fields) posArgs
             namedKeys namedVals sid σ
         else
           evalMethodCall E fuel base fields posArgs namedKeys namedVals
             sid σ
       | other =>
         evalPrefixCall E fuel other posArgs namedKeys namedVals sid σ)
    | .infixA op l r =>
      if op = "and" then
        (eval E fuel l sid σ).andThen fun lv σ =>
          if ¬ lv.truthy then .ok lv σ else eval E fuel r sid σ
      else if op = "or" then
        (eval E fuel l sid σ).andThen fun lv σ =>
          if lv.truthy then .ok lv σ else eval E fuel r sid σ
      else if op = "??" then
        (eval E fuel l sid σ).andThen fun lv σ =>
          if ¬ lv.isNil then .ok lv σ else eval E fuel r sid σ
      else if op = "?:" then
        (eval E fuel l sid σ).andThen fun lv σ =>
          if lv.truthy then .ok lv σ else eval E fuel r sid σ
      else
        (eval E fuel l sid σ).andThen fun lv σ =>
        (eval E fuel r sid σ).andThen fun rv σ =>
        applyBinOp fuel op lv rv σ
    | .unaryNot e =>
      (eval E fuel e sid σ).andThen fun v σ => .ok (.bool (¬ v.truthy)) σ
    | .unaryNegate e =>
      (eval E fuel e sid σ).andThen fun v σ =>
        match v with
        | .int i => .ok (.int (wrap64 (-i))) σ
        | .float _ => .err "<not modeled: float arithmetic>"
        | _ => .err ("Cannot negate " ++ v.typeName)
    | .block stmts => evalStmts E fuel stmts .nil sid σ
    | .index t i =>
      (eval E fuel t sid σ).andThen fun tv σ =>
      (eval E fuel i sid σ).andThen fun iv σ =>
      indexOp σ tv iv
    | .refA e => eval E fuel e sid σ
    | .mapLit keys vals =>
      let (mapVal, σ) := σ.allocMap
      (match mapVal with
       | .map mref =>
         (evalMapEntries E fuel keys vals mref sid σ).andThen fun _ σ =>
           .ok mapVal σ
       | _ => .err "unreachable")
    | .setA target rhs =>
      (eval E fuel rhs sid σ).andThen fun val σ =>
        match target with
        | [] => .err "<malformed Set node>"
        | [single] =>
          let (sym, σ) := σ.internS single
          .ok val { σ with scopes := scopeSet σ.scopes sid sym val }
        | root :: restParts => dottedSetStore E root restParts val sid σ
    | .letA n rhs =>
      (eval E fuel rhs sid σ).andThen fun val σ =>
        let (sym, σ) := σ.internS n
        .ok val (σ.defineIn sid sym val)
    | .fn nm params numRequired body defaults variadic =>
      makeClosureValue nm params numRequired body defaults variadic sid σ
    | .ifA children hasElse =>
      let pairs := if hasElse then (children.length - 1) / 2
        else children.length / 2
      evalIfPairs E fuel children 0 pairs hasElse sid σ
    | .forA var iterable body =>
      let (varSym, σ) := σ.internS var
      (eval E fuel iterable sid σ).andThen fun iterVal σ =>
        let (loopSid, σ) := σ.createChild sid
        let σ := σ.defineIn loopSid varSym .nil
        match iterVal with
        | .array aref =>
          (match σ.getArray aref with
           | some elems => evalForLoop E fuel elems varSym body loopSid .nil σ
           | none => .err "dangling array")
        | _ => .err ("Cannot iterate over " ++ iterVal.typeName)
    | .whileA cond body => evalWhileLoop E fuel cond body .nil sid σ
    | .matchA scrutinee arms =>
      (eval E fuel scrutinee sid σ).andThen fun scrutVal σ =>
        evalMatchArms E fuel arms scrutVal sid σ
    | .onA eventName body => registerOnHandler eventName body sid σ
    | .returnA val =>
      (match val with
       | none => .ret .nil σ
       | some e => (eval E fuel e sid σ).andThen fun v σ => .ret v σ)
    | .sourceA _ => .err "<not modeled: source script loading>"

def evalMethodCall (E : EvalSyms) : Nat → Ast → List String → List Ast →
    List String → List Ast → Nat → Store → EvalResult Value
  | 0, _, _, _, _, _, _, _ => .timeout
  | fuel+1, base, fields, posArgs, namedKeys, namedVals, sid, σ =>
    (eval E fuel base sid σ).andThen fun baseVal σ =>
    (navReceiver fields.dropLast baseVal σ).andThen fun receiver σ =>
    let methodName := fields.getLast?.getD ""
    let (methodSym, σ) := σ.internS methodName
    (evalArgsList E fuel posArgs sid σ).andThen fun args σ =>
    dispatchCallTail E fuel base fields methodName methodSym receiver args
      namedKeys namedVals sid σ

def dispatchCallTail (E : EvalSyms) : Nat → Ast → List String → String →
    Nat → Value → List Value → List String → List Ast → Nat → Store →
    EvalResult Value
  | 0, _, _, _, _, _, _, _, _, _, _ => .timeout
  | fuel+1, base, fields, methodName, methodSym, receiver, args,
      namedKeys, namedVals, sid, σ =>
    if receiver.isMap ∧ isBuiltinMapMethod E methodSym then
      dispatchBuiltinMethod E fuel receiver methodSym args σ
    else if receiver.isArray ∧ isBuiltinArrayMethod E methodSym then
      dispatchBuiltinMethod E fuel receiver methodSym args σ
    else if receiver.isString ∧ isBuiltinStringMethod E methodSym then
      dispatchBuiltinMethod E fuel receiver methodSym args σ
    else
      match receiver with
      | .map mref =>
        (match σ.getMap mref with
         | none => .err "dangling map"
         | some m =>
           if m.has methodSym then
             let func := m.get methodSym
             let args := if m.isMethod methodSym then receiver :: args
               else args
             if args.isEmpty ∧ namedKeys.isEmpty ∧ ¬ func.isCallable then
               .ok func σ
             else if ¬ namedKeys.isEmpty ∧ func.isClosure then
               (evalNamedList E fuel namedKeys namedVals sid σ).andThen
                 fun namedArgs σ =>
                 (match func with
                  | .closure cref =>
                    (match σ.getClosure cref with
                     | some clo =>
                       callClosureWithNamed E fuel clo args namedArgs σ
                     | none => .err "dangling closure")
                  | _ => .err "unreachable")
             else if ¬ namedKeys.isEmpty ∧ func.isNativeFunction then
               (evalNamedList E fuel namedKeys namedVals sid σ).andThen
                 fun namedArgs σ =>
                 let (kwargsMap, σ) := collectKwargsMap σ namedArgs
                 callFunction E fuel func (args ++ [kwargsMap]) σ
             else callFunction E fuel func args σ
           else if args.isEmpty ∧ namedKeys.isEmpty then
             eval E fuel (.dottedName base fields) sid σ
           else
             .err ("No method '" ++ methodName ++ "' on " ++
               receiver.typeName))
      | _ =>
        if args.isEmpty ∧ namedKeys.isEmpty then
          eval E fuel (.dottedName base fields) sid σ
        else
          .err ("No method '" ++ methodName ++ "' on " ++ receiver.typeName)

def evalPrefixCall (E : EvalSyms) : Nat → Ast → List Ast → List String →
    List Ast → Nat → Store → EvalResult Value
  | 0, _, _, _, _, _, _ => .timeout
  | fuel+1, verbNode, posArgs, namedKeys, namedVals, sid, σ =>
    (eval E fuel verbNode sid σ).andThen fun verb σ =>
    (evalArgsList E fuel posArgs sid σ).andThen fun args σ =>
    if args.isEmpty ∧ namedKeys.isEmpty ∧ ¬ verb.isCallable then
      .ok verb σ
    else if ¬ namedKeys.isEmpty ∧ verb.isClosure then
      (evalNamedList E fuel namedKeys namedVals sid σ).andThen
        fun namedArgs σ =>
        (match verb with
         | .closure cref =>
           (match σ.getClosure cref with
            | some clo => callClosureWithNamed E fuel clo args namedArgs σ
            | none => .err "dangling closure")
         | _ => .err "unreachable")
    else if ¬ namedKeys.isEmpty ∧ verb.isNativeFunction then
      (evalNamedList E fuel namedKeys namedVals sid σ).andThen
        fun namedArgs σ =>
        let (kwargsMap, σ) := collectKwargsMap σ namedArgs
        callFunction E fuel verb (args ++ [kwargsMap]) σ
    else callFunction E fuel verb args σ

def evalArgsList (E : EvalSyms) : Nat → List Ast → Nat → Store →
    EvalResult (List Value)
  | 0, _, _, _ => .timeout
  | _+1, [], _, σ => .ok [] σ
  | fuel+1, a :: rest, sid, σ =>
    (eval E fuel a sid σ).andThen fun v σ =>
    (evalArgsList E fuel rest sid σ).andThen fun vs σ =>
    .ok (v :: vs) σ

def evalNamedList (E : EvalSyms) : Nat → List String → List Ast → Nat →
    Store → EvalResult (List (Nat × Value))
  | 0, _, _, _, _ => .timeout
  | fuel+1, k :: krest, v :: vrest, sid, σ =>
    let (sym, σ) := σ.internS k
    (eval E fuel v sid σ).andThen fun val σ =>
    (evalNamedList E fuel krest vrest sid σ).andThen fun rest σ =>
    .ok ((sym, val) :: rest) σ
  | _+1, _, _, _, σ => .ok [] σ

def evalStmts (E : EvalSyms) : Nat → List Ast → Value → Nat → Store →
    EvalResult Value
  | 0, _, _, _, _ => .timeout
  | _+1, [], result, _, σ => .ok result σ
  | fuel+1, s :: rest, _, sid, σ =>
    (eval E fuel s sid σ).andThen fun v σ =>
    evalStmts E fuel rest v sid σ

def evalMapEntries (E : EvalSyms) : Nat → List String → List Ast → Nat →
    Nat → Store → EvalResult Unit
  | 0, _, _, _, _, _ => .timeout
  | fuel+1, k :: krest, v :: vrest, mref, sid, σ =>
    let (sym, σ) := σ.internS k
    (eval E fuel v sid σ).andThen fun val σ =>
      (match σ.getMap mref with
       | some m =>
         evalMapEntries E fuel krest vrest mref sid
           (σ.setMap mref (autoMethodStore E σ m sym val))
       | none => .err "dangling map")
  | _+1, _, _, _, _, σ => .ok () σ

def evalIfPairs (E : EvalSyms) : Nat → List Ast → Nat → Nat → Bool →
    Nat → Store → EvalResult Value
  | 0, _, _, _, _, _, _ => .timeout
  | fuel+1, children, i, pairs, hasElse, sid, σ =>
    if i < pairs then
      match children.get? (i * 2), children.get? (i * 2 + 1) with
      | some cond, some body =>
        (eval E fuel cond sid σ).andThen fun condVal σ =>
          if condVal.truthy then eval E fuel body sid σ
          else evalIfPairs E fuel children (i + 1) pairs hasElse sid σ
      | _, _ => .ok .nil σ
    else if hasElse then
      match children.getLast? with
      | some elseBody => eval E fuel elseBody sid σ
      | none => .ok .nil σ
    else .ok .nil σ

def evalMatchArms (E : EvalSyms) : Nat → List Ast → Value → Nat →
    Store → EvalResult Value
  | 0, _, _, _, _ => .timeout
  | fuel+1, pat :: body :: rest, scrutVal, sid, σ =>
    if isWildcardPat pat then eval E fuel body sid σ
    else
      (eval E fuel pat sid σ).andThen fun patVal σ =>
        if valueEq fuel σ scrutVal patVal then eval E fuel body sid σ
        else evalMatchArms E fuel rest scrutVal sid σ
  | _+1, _, _, _, σ => .ok .nil σ

def evalForLoop (E : EvalSyms) : Nat → List Value → Nat → Ast → Nat →
    Value → Store → EvalResult Value
  | 0, _, _, _, _, _, _ => .timeout
  | _+1, [], _, _, _, result, σ => .ok result σ
  | fuel+1, e :: rest, varSym, body, loopSid, _, σ =>
    let σ := σ.defineIn loopSid varSym e
    (eval E fuel body loopSid σ).andThen fun v σ =>
      evalForLoop E (fuel+1) rest varSym body loopSid v σ

def evalWhileLoop (E : EvalSyms) : Nat → Ast → Ast → Value → Nat →
    Store → EvalResult Value
  | 0, _, _, _, _, _ => .timeout
  | fuel+1, cond, body, result, sid, σ =>
    (eval E fuel cond sid σ).andThen fun condVal σ =>
      if ¬ condVal.truthy then .ok result σ
      else
        (eval E fuel body sid σ).andThen fun v σ =>
          evalWhileLoop E fuel cond body v sid σ

def callFunction (E : EvalSyms) : Nat → Value → List Value → Store →
    EvalResult Value
  | 0, _, _, _ => .timeout
  | fuel+1, callable, args, σ =>
    match callable with
    | .closure cref =>
      (match σ.getClosure cref with
       | some clo => callClosure E fuel clo args σ
       | none => .err "dangling closure")
    | .native _ =>
      (match σ.ctx with
       | none => .err "Cannot call native function without execution context"
       | some _ => .err "<not modeled: native function call>")
    | other => .err ("Value is not callable: " ++ other.typeName)

def callClosure (E : EvalSyms) : Nat → Closure → List Value → Store →
    EvalResult Value
  | 0, _, _, _ => .timeout
  | fuel+1, clo, args, σ =>
    let (callSid, σ) := σ.createChild clo.capturedScope
    (bindParams E fuel clo clo.paramIds 0 args callSid σ).andThen
      fun _ σ =>
      let σ :=
        if clo.hasRestParam then
          let (restArr, σ') := σ.allocArray (args.drop clo.paramIds.length)
          σ'.defineIn callSid clo.restParamId restArr
        else σ
      let σ :=
        if clo.hasKwargsParam then
          let (kmap, σ') := σ.allocMap
          σ'.defineIn callSid clo.kwargsParamId kmap
        else σ
      match eval E fuel clo.body callSid σ with
      | .ret v σ => .ok v σ
      | other => other

def callClosureWithNamed (E : EvalSyms) : Nat → Closure → List Value →
    List (Nat × Value) → Store → EvalResult Value
  | 0, _, _, _, _ => .timeout
  | fuel+1, clo, posArgs, namedArgs, σ =>
    let (callSid, σ) := σ.createChild clo.capturedScope
    (bindParamsNamed E fuel clo clo.paramIds 0 posArgs
        (namedArgs.map (fun kv => (kv.1, kv.2, false))) callSid σ).andThen
      fun named σ =>
      let σ :=
        if clo.hasRestParam then
          let (restArr, σ') :=
            σ.allocArray (posArgs.drop clo.paramIds.length)
          σ'.defineIn callSid clo.restParamId restArr
        else σ
      let σ :=
        if clo.hasKwargsParam then
          let (kmap, σ') := σ.allocMap
          (match kmap with
           | .map kref =>
             let σ'' := named.foldl
               (fun σa kv =>
                 if kv.2.2 then σa
                 else
                   match σa.getMap kref with
                   | some km => σa.setMap kref (km.set kv.1 kv.2.1)
                   | none => σa) σ'
             σ''.defineIn callSid clo.kwargsParamId kmap
           | _ => σ')
        else σ
      match eval E fuel clo.body callSid σ with
      | .ret v σ => .ok v σ
      | other => other

def bindParams (E : EvalSyms) : Nat → Closure → List Nat → Nat →
    List Value → Nat → Store → EvalResult Unit
  | 0, _, _, _, _, _, _ => .timeout
  | _+1, _, [], _, _, _, σ => .ok () σ
  | fuel+1, clo, p :: rest, i, args, callSid, σ =>
    match args.get? i with
    | some a =>
      bindParams E fuel clo rest (i + 1) args callSid
        (σ.defineIn callSid p a)
    | none =>
      if clo.numRequired ≤ i ∧
          i - clo.numRequired < clo.defaultExprs.length then
        match clo.defaultExprs.get? (i - clo.numRequired) with
        | some defExpr =>
          (eval E fuel defExpr callSid σ).andThen fun def_ σ =>
            bindParams E fuel clo rest (i + 1) args callSid
              (σ.defineIn callSid p def_)
        | none =>
          bindParams E fuel clo rest (i + 1) args callSid
            (σ.defineIn callSid p .nil)
      else
        bindParams E fuel clo rest (i + 1) args callSid
          (σ.defineIn callSid p .nil)

def bindParamsNamed (E : EvalSyms) : Nat → Closure → List Nat → Nat →
    List Value → List (Nat × Value × Bool) → Nat → Store →
    EvalResult (List (Nat × Value × Bool))
  | 0, _, _, _, _, _, _, _ => .timeout
  | _+1, _, [], _, _, named, _, σ => .ok named σ
  | fuel+1, clo, p :: rest, i, posArgs, named, callSid, σ =>
    match posArgs.get? i with
    | some a =>
      bindParamsNamed E fuel clo rest (i + 1) posArgs named callSid
        (σ.defineIn callSid p a)
    | none =>
      match findAndMarkNamed p named with
      | some out =>
        bindParamsNamed E fuel clo rest (i + 1) posArgs out.2 callSid
          (σ.defineIn callSid p out.1)
      | none =>
        if clo.numRequired ≤ i ∧
            i - clo.numRequired < clo.defaultExprs.length then
          match clo.defaultExprs.get? (i - clo.numRequired) with
          | some defExpr =>
            (eval E fuel defExpr callSid σ).andThen fun def_ σ =>
              bindParamsNamed E fuel clo rest (i + 1) posArgs named
                callSid (σ.defineIn callSid p def_)
          | none =>
            bindParamsNamed E fuel clo rest (i + 1) posArgs named callSid
              (σ.defineIn callSid p .nil)
        else
          bindParamsNamed E fuel clo rest (i + 1) posArgs named callSid
            (σ.defineIn callSid p .nil)

end


end FineScript

namespace FineScript

/-- The symbol table and interner of an `Evaluator` constructed on a
fresh interner (`Evaluator::Evaluator` → `preInternSymbols`). -/
def evalSetup : EvalSyms × DefaultInterner :=
  preInternSymbols ⟨[]⟩

/-- The pre-interned symbols of a fresh evaluator. -/
def E0 : EvalSyms := evalSetup.1

/-- A fresh engine world: one global scope, empty heaps, the
evaluator's pre-interned interner, no execution context. -/
def initialStore : Store :=
  { scopes := [⟨none, []⟩], arrays := [], maps := [], closures := [],
    interner := evalSetup.2, ctx := none }

/-- `FullScriptResult` as `ScriptEngine::execute` fills it
(script_engine.cpp:81-104); the location/script-name fields carry no
verified content and are omitted. -/
structure FullScriptResult where
  success : Bool
  returnValue : Value := .nil
  error : String := ""
deriving Repr

/-- `ScriptEngine::execute` (script_engine.cpp:81-104): evaluate the
root in the context scope; a `ScriptError` (or other exception)
becomes `success = false` with its message; a `ReturnSignal` that
reaches the top is caught, with `success = true` and its value as the
script's return value.  `none` only on fuel exhaustion. -/
def execute (E : EvalSyms) (fuel : Nat) (root : Ast) (ctxScope : Nat)
    (σ : Store) : Option FullScriptResult :=
  match eval E fuel root ctxScope σ with
  | .ok v _ => some { success := true, returnValue := v }
  | .ret v _ => some { success := true, returnValue := v }
  | .err m => some { success := false, error := m }
  | .timeout => none

end FineScript

namespace FineScript

/-! ## Equation lemmas

One rewriting lemma per dispatch arm (the well-founded compilation of
the mutual block does not reduce definitionally, so these named
equations stand in for it). -/

theorem eval_zero (E : EvalSyms) (ast : Ast) (sid : Nat) (σ : Store) :
    eval E 0 ast sid σ = .timeout := by rw [eval.eq_def]

theorem eval_intLit (E : EvalSyms) (fuel : Nat) (i : Int) (sid : Nat)
    (σ : Store) : eval E (fuel+1) (.intLit i) sid σ = .ok (.int i) σ := by
  rw [eval.eq_def]

theorem eval_floatLit (E : EvalSyms) (fuel : Nat) (bits : Nat) (sid : Nat)
    (σ : Store) :
    eval E (fuel+1) (.floatLit bits) sid σ = .ok (.float bits) σ := by
  rw [eval.eq_def]

theorem eval_stringLit (E : EvalSyms) (fuel : Nat) (s : String) (sid : Nat)
    (σ : Store) :
    eval E (fuel+1) (.stringLit s) sid σ = .ok (.str s) σ := by
  rw [eval.eq_def]

theorem eval_stringInterp (E : EvalSyms) (fuel : Nat) (parts : List Ast)
    (sid : Nat) (σ : Store) :
    eval E (fuel+1) (.stringInterp parts) sid σ =
      (evalArgsList E fuel parts sid σ).andThen fun vs σ =>
        .ok (.str (vs.foldl (fun acc v => acc ++ toStringV fuel σ v) "")) σ := by
  rw [eval.eq_def]

theorem eval_symbolLit (E : EvalSyms) (fuel : Nat) (nm : String) (sid : Nat)
    (σ : Store) :
    eval E (fuel+1) (.symbolLit nm) sid σ =
      .ok (.symbol (σ.internS nm).1) (σ.internS nm).2 := by
  rw [eval.eq_def]

theorem eval_boolLit (E : EvalSyms) (fuel : Nat) (b : Bool) (sid : Nat)
    (σ : Store) : eval E (fuel+1) (.boolLit b) sid σ = .ok (.bool b) σ := by
  rw [eval.eq_def]

theorem eval_nilLit (E : EvalSyms) (fuel : Nat) (sid : Nat) (σ : Store) :
    eval E (fuel+1) .nilLit sid σ = .ok .nil σ := by
  rw [eval.eq_def]

theorem eval_arrayLit (E : EvalSyms) (fuel : Nat) (elems : List Ast)
    (sid : Nat) (σ : Store) :
    eval E (fuel+1) (.arrayLit elems) sid σ =
      (evalArgsList E fuel elems sid σ).andThen fun vs σ =>
        let (arr, σ) := σ.allocArray vs
        .ok arr σ := by
  rw [eval.eq_def]

theorem eval_nameA (E : EvalSyms) (fuel : Nat) (s : String) (sid : Nat)
    (σ : Store) :
    eval E (fuel+1) (.nameA s) sid σ =
      (match scopeLookup (σ.internS s).2.scopes sid (σ.internS s).1 with
       | some v => .ok v (σ.internS s).2
       | none => .ok .nil (σ.internS s).2) := by
  rw [eval.eq_def]

theorem eval_dottedName (E : EvalSyms) (fuel : Nat) (base : Ast)
    (fields : List String) (sid : Nat) (σ : Store) :
    eval E (fuel+1) (.dottedName base fields) sid σ =
      (eval E fuel base sid σ).andThen fun current σ =>
        walkFields E fields current σ := by
  rw [eval.eq_def]

theorem eval_call (E : EvalSyms) (fuel : Nat) (verb : Ast)
    (posArgs : List Ast) (namedKeys : List String) (namedVals : List Ast)
    (sid : Nat) (σ : Store) :
    eval E (fuel+1) (.call verb posArgs namedKeys namedVals) sid σ =
      (match verb with
       | .dottedName base fields =>
         if fields.isEmpty then
           evalPrefixCall E fuel (.dottedName base fields) posArgs
             namedKeys namedVals sid σ
         else
           evalMethodCall E fuel base fields posArgs namedKeys namedVals
             sid σ
       | other =>
         evalPrefixCall E fuel other posArgs namedKeys namedVals sid σ) := by
  rw [eval.eq_def]

theorem eval_infix (E : EvalSyms) (fuel : Nat) (op : String) (l r : Ast)
    (sid : Nat) (σ : Store) :
    eval E (fuel+1) (.infixA op l r) sid σ =
      (if op = "and" then
        (eval E fuel l sid σ).andThen fun lv σ =>
          if ¬ lv.truthy then .ok lv σ else eval E fuel r sid σ
      else if op = "or" then
        (eval E fuel l sid σ).andThen fun lv σ =>
          if lv.truthy then .ok lv σ else eval E fuel r sid σ
      else if op = "??" then
        (eval E fuel l sid σ).andThen fun lv σ =>
          if ¬ lv.isNil then .ok lv σ else eval E fuel r sid σ
      else if op = "?:" then
        (eval E fuel l sid σ).andThen fun lv σ =>
          if lv.truthy then .ok lv σ else eval E fuel r sid σ
      else
        (eval E fuel l sid σ).andThen fun lv σ =>
        (eval E fuel r sid σ).andThen fun rv σ =>
        applyBinOp fuel op lv rv σ) := by
  rw [eval.eq_def]

theorem eval_unaryNot (E : EvalSyms) (fuel : Nat) (e : Ast) (sid : Nat)
    (σ : Store) :
    eval E (fuel+1) (.unaryNot e) sid σ =
      (eval E fuel e sid σ).andThen fun v σ => .ok (.bool (¬ v.truthy)) σ := by
  rw [eval.eq_def]

theorem eval_unaryNegate (E : EvalSyms) (fuel : Nat) (e : Ast) (sid : Nat)
    (σ : Store) :
    eval E (fuel+1) (.unaryNegate e) sid σ =
      (eval E fuel e sid σ).andThen fun v σ =>
        match v with
        | .int i => .ok (.int (wrap64 (-i))) σ
        | .float _ => .err "<not modeled: float arithmetic>"
        | _ => .err ("Cannot negate " ++ v.typeName) := by
  rw [eval.eq_def]

theorem eval_block (E : EvalSyms) (fuel : Nat) (stmts : List Ast)
    (sid : Nat) (σ : Store) :
    eval E (fuel+1) (.block stmts) sid σ =
      evalStmts E fuel stmts .nil sid σ := by
  rw [eval.eq_def]

theorem eval_index (E : EvalSyms) (fuel : Nat) (t i : Ast) (sid : Nat)
    (σ : Store) :
    eval E (fuel+1) (.index t i) sid σ =
      (eval E fuel t sid σ).andThen fun tv σ =>
      (eval E fuel i sid σ).andThen fun iv σ =>
      indexOp σ tv iv := by
  rw [eval.eq_def]

theorem eval_refA (E : EvalSyms) (fuel : Nat) (e : Ast) (sid : Nat)
    (σ : Store) :
    eval E (fuel+1) (.refA e) sid σ = eval E fuel e sid σ := by
  rw [eval.eq_def]

theorem eval_mapLit (E : EvalSyms) (fuel : Nat) (keys : List String)
    (vals : List Ast) (sid : Nat) (σ : Store) :
    eval E (fuel+1) (.mapLit keys vals) sid σ =
      (let (mapVal, σ) := σ.allocMap
       match mapVal with
       | .map mref =>
         (evalMapEntries E fuel keys vals mref sid σ).andThen fun _ σ =>
           .ok mapVal σ
       | _ => .err "unreachable") := by
  rw [eval.eq_def]

theorem eval_setA (E : EvalSyms) (fuel : Nat) (target : List String)
    (rhs : Ast) (sid : Nat) (σ : Store) :
    eval E (fuel+1) (.setA target rhs) sid σ =
      (eval E fuel rhs sid σ).andThen fun val σ =>
        match target with
        | [] => .err "<malformed Set node>"
        | [single] =>
          let (sym, σ) := σ.internS single
          .ok val { σ with scopes := scopeSet σ.scopes sid sym val }
        | root :: restParts => dottedSetStore E root restParts val sid σ := by
  rw [eval.eq_def]

theorem eval_letA (E : EvalSyms) (fuel : Nat) (n : String) (rhs : Ast)
    (sid : Nat) (σ : Store) :
    eval E (fuel+1) (.letA n rhs) sid σ =
      (eval E fuel rhs sid σ).andThen fun val σ =>
        let (sym, σ) := σ.internS n
        .ok val (σ.defineIn sid sym val) := by
  rw [eval.eq_def]

theorem eval_fn (E : EvalSyms) (fuel : Nat) (nm : String)
    (params : List String) (numRequired : Nat) (body : Ast)
    (defaults : List Ast) (variadic : String) (sid : Nat) (σ : Store) :
    eval E (fuel+1) (.fn nm params numRequired body defaults variadic) sid σ =
      makeClosureValue nm params numRequired body defaults variadic sid σ := by
  rw [eval.eq_def]

theorem eval_ifA (E : EvalSyms) (fuel : Nat) (children : List Ast)
    (hasElse : Bool) (sid : Nat) (σ : Store) :
    eval E (fuel+1) (.ifA children hasElse) sid σ =
      evalIfPairs E fuel children 0
        (if hasElse then (children.length - 1) / 2 else children.length / 2)
        hasElse sid σ := by
  rw [eval.eq_def]

theorem eval_forA (E : EvalSyms) (fuel : Nat) (var : String)
    (iterable body : Ast) (sid : Nat) (σ : Store) :
    eval E (fuel+1) (.forA var iterable body) sid σ =
      (let (varSym, σ) := σ.internS var
       (eval E fuel iterable sid σ).andThen fun iterVal σ =>
         let (loopSid, σ) := σ.createChild sid
         let σ := σ.defineIn loopSid varSym .nil
         match iterVal with
         | .array aref =>
           (match σ.getArray aref with
            | some elems =>
              evalForLoop E fuel elems varSym body loopSid .nil σ
            | none => .err "dangling array")
         | _ => .err ("Cannot iterate over " ++ iterVal.typeName)) := by
  rw [eval.eq_def]

theorem eval_whileA (E : EvalSyms) (fuel : Nat) (cond body : Ast)
    (sid : Nat) (σ : Store) :
    eval E (fuel+1) (.whileA cond body) sid σ =
      evalWhileLoop E fuel cond body .nil sid σ := by
  rw [eval.eq_def]

theorem eval_matchA (E : EvalSyms) (fuel : Nat) (scrutinee : Ast)
    (arms : List Ast) (sid : Nat) (σ : Store) :
    eval E (fuel+1) (.matchA scrutinee arms) sid σ =
      (eval E fuel scrutinee sid σ).andThen fun scrutVal σ =>
        evalMatchArms E fuel arms scrutVal sid σ := by
  rw [eval.eq_def]

theorem eval_onA (E : EvalSyms) (fuel : Nat) (eventName : String)
    (body : Ast) (sid : Nat) (σ : Store) :
    eval E (fuel+1) (.onA eventName body) sid σ =
      registerOnHandler eventName body sid σ := by
  rw [eval.eq_def]

theorem eval_returnA (E : EvalSyms) (fuel : Nat) (val : Option Ast)
    (sid : Nat) (σ : Store) :
    eval E (fuel+1) (.returnA val) sid σ =
      (match val with
       | none => .ret .nil σ
       | some e => (eval E fuel e sid σ).andThen fun v σ => .ret v σ) := by
  rw [eval.eq_def]

theorem eval_sourceA (E : EvalSyms) (fuel : Nat) (file : Ast) (sid : Nat)
    (σ : Store) :
    eval E (fuel+1) (.sourceA file) sid σ =
      .err "<not modeled: source script loading>" := by
  rw [eval.eq_def]

theorem evalMethodCall_succ (E : EvalSyms) (fuel : Nat) (base : Ast)
    (fields : List String) (posArgs : List Ast) (namedKeys : List String)
    (namedVals : List Ast) (sid : Nat) (σ : Store) :
    evalMethodCall E (fuel+1) base fields posArgs namedKeys namedVals sid σ =
      ((eval E fuel base sid σ).andThen fun baseVal σ =>
       (navReceiver fields.dropLast baseVal σ).andThen fun receiver σ =>
       (evalArgsList E fuel posArgs sid
           (σ.internS (fields.getLast?.getD "")).2).andThen fun args σ1 =>
       dispatchCallTail E fuel base fields (fields.getLast?.getD "")
         (σ.internS (fields.getLast?.getD "")).1 receiver args
         namedKeys namedVals sid σ1) := by
  rw [evalMethodCall.eq_def]

theorem evalPrefixCall_succ (E : EvalSyms) (fuel : Nat) (verbNode : Ast)
    (posArgs : List Ast) (namedKeys : List String) (namedVals : List Ast)
    (sid : Nat) (σ : Store) :
    evalPrefixCall E (fuel+1) verbNode posArgs namedKeys namedVals sid σ =
      ((eval E fuel verbNode sid σ).andThen fun verb σ =>
       (evalArgsList E fuel posArgs sid σ).andThen fun args σ =>
       if args.isEmpty ∧ namedKeys.isEmpty ∧ ¬ verb.isCallable then
         .ok verb σ
       else if ¬ namedKeys.isEmpty ∧ verb.isClosure then
         (evalNamedList E fuel namedKeys namedVals sid σ).andThen
           fun namedArgs σ =>
           (match verb with
            | .closure cref =>
              (match σ.getClosure cref with
               | some clo => callClosureWithNamed E fuel clo args namedArgs σ
               | none => .err "dangling closure")
            | _ => .err "unreachable")
       else if ¬ namedKeys.isEmpty ∧ verb.isNativeFunction then
         (evalNamedList E fuel namedKeys namedVals sid σ).andThen
           fun namedArgs σ =>
           let (kwargsMap, σ) := collectKwargsMap σ namedArgs
           callFunction E fuel verb (args ++ [kwargsMap]) σ
       else callFunction E fuel verb args σ) := by
  rw [evalPrefixCall.eq_def]

theorem evalArgsList_nil (E : EvalSyms) (fuel : Nat) (sid : Nat)
    (σ : Store) : evalArgsList E (fuel+1) [] sid σ = .ok [] σ := by
  rw [evalArgsList.eq_def]

theorem evalArgsList_cons (E : EvalSyms) (fuel : Nat) (a : Ast)
    (rest : List Ast) (sid : Nat) (σ : Store) :
    evalArgsList E (fuel+1) (a :: rest) sid σ =
      ((eval E fuel a sid σ).andThen fun v σ =>
       (evalArgsList E fuel rest sid σ).andThen fun vs σ =>
       .ok (v :: vs) σ) := by
  rw [evalArgsList.eq_def]

theorem evalStmts_nil (E : EvalSyms) (fuel : Nat) (result : Value)
    (sid : Nat) (σ : Store) :
    evalStmts E (fuel+1) [] result sid σ = .ok result σ := by
  rw [evalStmts.eq_def]

theorem evalStmts_cons (E : EvalSyms) (fuel : Nat) (s : Ast)
    (rest : List Ast) (result : Value) (sid : Nat) (σ : Store) :
    evalStmts E (fuel+1) (s :: rest) result sid σ =
      ((eval E fuel s sid σ).andThen fun v σ =>
       evalStmts E fuel rest v sid σ) := by
  rw [evalStmts.eq_def]

theorem evalMapEntries_cons (E : EvalSyms) (fuel : Nat) (k : String)
    (krest : List String) (v : Ast) (vrest : List Ast) (mref sid : Nat)
    (σ : Store) :
    evalMapEntries E (fuel+1) (k :: krest) (v :: vrest) mref sid σ =
      ((eval E fuel v sid (σ.internS k).2).andThen fun val σ1 =>
        match σ1.getMap mref with
        | some m =>
          evalMapEntries E fuel krest vrest mref sid
            (σ1.setMap mref (autoMethodStore E σ1 m (σ.internS k).1 val))
        | none => .err "dangling map") := by
  rw [evalMapEntries.eq_def]

theorem evalMapEntries_nil (E : EvalSyms) (fuel : Nat) (vals : List Ast)
    (mref sid : Nat) (σ : Store) :
    evalMapEntries E (fuel+1) [] vals mref sid σ = .ok () σ := by
  rw [evalMapEntries.eq_def]

theorem evalForLoop_nil (E : EvalSyms) (fuel : Nat) (varSym : Nat)
    (body : Ast) (loopSid : Nat) (result : Value) (σ : Store) :
    evalForLoop E (fuel+1) [] varSym body loopSid result σ =
      .ok result σ := by
  rw [evalForLoop.eq_def]

theorem evalForLoop_cons (E : EvalSyms) (fuel : Nat) (e : Value)
    (rest : List Value) (varSym : Nat) (body : Ast) (loopSid : Nat)
    (result : Value) (σ : Store) :
    evalForLoop E (fuel+1) (e :: rest) varSym body loopSid result σ =
      ((eval E fuel body loopSid (σ.defineIn loopSid varSym e)).andThen
        fun v σ =>
        evalForLoop E (fuel+1) rest varSym body loopSid v σ) := by
  rw [evalForLoop.eq_def]

theorem evalWhileLoop_succ (E : EvalSyms) (fuel : Nat) (cond body : Ast)
    (result : Value) (sid : Nat) (σ : Store) :
    evalWhileLoop E (fuel+1) cond body result sid σ =
      ((eval E fuel cond sid σ).andThen fun condVal σ =>
        if ¬ condVal.truthy then .ok result σ
        else
          (eval E fuel body sid σ).andThen fun v σ =>
            evalWhileLoop E fuel cond body v sid σ) := by
  rw [evalWhileLoop.eq_def]

theorem callFunction_succ (E : EvalSyms) (fuel : Nat) (callable : Value)
    (args : List Value) (σ : Store) :
    callFunction E (fuel+1) callable args σ =
      (match callable with
       | .closure cref =>
         (match σ.getClosure cref with
          | some clo => callClosure E fuel clo args σ
          | none => .err "dangling closure")
       | .native _ =>
         (match σ.ctx with
          | none => .err "Cannot call native function without execution context"
          | some _ => .err "<not modeled: native function call>")
       | other => .err ("Value is not callable: " ++ other.typeName)) := by
  rw [callFunction.eq_def]

theorem callClosure_succ (E : EvalSyms) (fuel : Nat) (clo : Closure)
    (args : List Value) (σ : Store) :
    callClosure E (fuel+1) clo args σ =
      (let cs := σ.createChild clo.capturedScope
       (bindParams E fuel clo clo.paramIds 0 args cs.1 cs.2).andThen
         fun _ σ2 =>
         let σ3 :=
           if clo.hasRestParam then
             let pr := σ2.allocArray (args.drop clo.paramIds.length)
             pr.2.defineIn cs.1 clo.restParamId pr.1
           else σ2
         let σ4 :=
           if clo.hasKwargsParam then
             let pk := σ3.allocMap
             pk.2.defineIn cs.1 clo.kwargsParamId pk.1
           else σ3
         match eval E fuel clo.body cs.1 σ4 with
         | .ret v σ5 => .ok v σ5
         | other => other) := by
  rw [callClosure.eq_def]

theorem bindParams_nil (E : EvalSyms) (fuel : Nat) (clo : Closure)
    (i : Nat) (args : List Value) (callSid : Nat) (σ : Store) :
    bindParams E (fuel+1) clo [] i args callSid σ = .ok () σ := by
  rw [bindParams.eq_def]

theorem bindParams_cons (E : EvalSyms) (fuel : Nat) (clo : Closure)
    (p : Nat) (rest : List Nat) (i : Nat) (args : List Value)
    (callSid : Nat) (σ : Store) :
    bindParams E (fuel+1) clo (p :: rest) i args callSid σ =
      (match args.get? i with
       | some a =>
         bindParams E fuel clo rest (i + 1) args callSid
           (σ.defineIn callSid p a)
       | none =>
         if clo.numRequired ≤ i ∧
             i - clo.numRequired < clo.defaultExprs.length then
           match clo.defaultExprs.get? (i - clo.numRequired) with
           | some defExpr =>
             (eval E fuel defExpr callSid σ).andThen fun def_ σ =>
               bindParams E fuel clo rest (i + 1) args callSid
                 (σ.defineIn callSid p def_)
           | none =>
             bindParams E fuel clo rest (i + 1) args callSid
               (σ.defineIn callSid p .nil)
         else
           bindParams E fuel clo rest (i + 1) args callSid
             (σ.defineIn callSid p .nil)) := by
  rw [bindParams.eq_def]

end FineScript

namespace FineScript

/-- C10: evaluating a bare `Name` whose symbol is bound nowhere in the
scope chain yields Nil — never an error (`Evaluator::evalName`,
evaluator.cpp:156-161; the store only changes by the interning of the
name). -/
theorem name_unbound_yields_nil (E : EvalSyms) (fuel : Nat) (s : String)
    (sid : Nat) (σ : Store)
    (h : scopeLookup (σ.internS s).2.scopes sid (σ.internS s).1 = none) :
    eval E (fuel+1) (.nameA s) sid σ = .ok .nil (σ.internS s).2 := by
  rw [eval_nameA, h]

/-- Witness for C10: reading the never-bound name `zzz` in a fresh
engine world yields Nil. -/
theorem name_unbound_yields_nil_witness :
    scopeLookup ((initialStore.internS "zzz").2).scopes 0
        ((initialStore.internS "zzz").1) = none ∧
    eval E0 6 (.nameA "zzz") 0 initialStore =
      .ok .nil (initialStore.internS "zzz").2 := by
  refine ⟨by decide, ?_⟩
  exact name_unbound_yields_nil E0 5 "zzz" 0 initialStore (by decide)

/-- C7: the four short-circuit operators of `Evaluator::evalInfix`
(evaluator.cpp:348-368).  With the left operand evaluated to `lv`:
`and` yields `lv` when falsy, else evaluates the right operand; `or`
yields `lv` when truthy, else the right; `??` yields `lv` unless it is
exactly Nil; `?:` yields `lv` when truthy.  In each short-circuit case
the result is `.ok lv σ1` for *every* right operand expression `r` —
the right operand is not evaluated. -/
theorem infix_short_circuit (E : EvalSyms) (fuel : Nat) (l r : Ast)
    (sid : Nat) (σ : Store) (lv : Value) (σ1 : Store)
    (h : eval E fuel l sid σ = .ok lv σ1) :
    (eval E (fuel+1) (.infixA "and" l r) sid σ =
      if lv.truthy then eval E fuel r sid σ1 else .ok lv σ1) ∧
    (eval E (fuel+1) (.infixA "or" l r) sid σ =
      if lv.truthy then .ok lv σ1 else eval E fuel r sid σ1) ∧
    (eval E (fuel+1) (.infixA "??" l r) sid σ =
      if lv.isNil then eval E fuel r sid σ1 else .ok lv σ1) ∧
    (eval E (fuel+1) (.infixA "?:" l r) sid σ =
      if lv.truthy then .ok lv σ1 else eval E fuel r sid σ1) := by
  refine ⟨?_, ?_, ?_, ?_⟩
  · rw [ eval_infix]
    simp only [h, EvalResult.andThen, String.reduceEq, reduceIte]
    try by_cases ht : lv.truthy <;> simp [ht]
  · rw [ eval_infix]
    simp only [h, EvalResult.andThen, String.reduceEq, reduceIte]
    try by_cases ht : lv.truthy <;> simp [ht]
  · rw [ eval_infix]
    simp only [h, EvalResult.andThen, String.reduceEq, reduceIte]
    try by_cases hn : lv.isNil <;> simp [hn]
  · rw [ eval_infix]
    simp only [h, EvalResult.andThen, String.reduceEq, reduceIte]
    try by_cases ht : lv.truthy <;> simp [ht]

/-- Witness for C7: `(nil ?? 3)` yields 3; `(false and 3)` yields
`false` without evaluating the right side; `(false ?: 3)` yields 3;
`(0 or 3)` yields 0 (0 is truthy). -/
theorem infix_short_circuit_witness :
    eval E0 6 (.infixA "??" .nilLit (.intLit 3)) 0 initialStore =
      .ok (.int 3) initialStore ∧
    eval E0 6 (.infixA "and" (.boolLit false) (.intLit 3)) 0 initialStore =
      .ok (.bool false) initialStore ∧
    eval E0 6 (.infixA "?:" (.boolLit false) (.intLit 3)) 0 initialStore =
      .ok (.int 3) initialStore ∧
    eval E0 6 (.infixA "or" (.intLit 0) (.intLit 3)) 0 initialStore =
      .ok (.int 0) initialStore := by
  refine ⟨?_, ?_, ?_, ?_⟩
  · have h := (infix_short_circuit E0 5 .nilLit (.intLit 3) 0 initialStore
      .nil initialStore (eval_nilLit E0 4 0 initialStore)).2.2.1
    rw [h]
    simp [Value.isNil, eval_intLit]
  · have h := (infix_short_circuit E0 5 (.boolLit false) (.intLit 3) 0
      initialStore (.bool false) initialStore
      (eval_boolLit E0 4 false 0 initialStore)).1
    rw [h]
    simp [Value.truthy]
  · have h := (infix_short_circuit E0 5 (.boolLit false) (.intLit 3) 0
      initialStore (.bool false) initialStore
      (eval_boolLit E0 4 false 0 initialStore)).2.2.2
    rw [h]
    simp [Value.truthy, eval_intLit]
  · have h := (infix_short_circuit E0 5 (.intLit 0) (.intLit 3) 0
      initialStore (.int 0) initialStore
      (eval_intLit E0 4 0 0 initialStore)).2.1
    rw [h]
    simp [Value.truthy]

end FineScript

namespace FineScript

/-- The negative-index adjustment the spec describes: a negative index
counts from the end. -/
def negWrapIndex (n len : Int) : Int :=
  if n < 0 then n + len else n

/-- Helper: a key just inserted is found with its new value. -/
theorem alistLookup_insert_self (k : Nat) (v : Value)
    (l : List (Nat × Value)) :
    alistLookup k (alistInsert k v l) = some v := by
  induction l with
  | nil => simp [alistInsert, alistLookup]
  | cons a l ih =>
    by_cases hk : a.1 = k
    · simp [alistInsert, alistLookup, hk]
    · simp [alistInsert, alistLookup, hk, ih]

/-- C8: the `Index` node contract (`Evaluator::evalIndex`,
evaluator.cpp:405-444, and `MapData::get`, map_data.cpp:6-11).  With
the target and index evaluated to `tv` and `iv`: an Array with an Int
index counts negative indices from the end and fails when still out of
range; a String with an Int index yields a single-byte string under
the same rule; a Map with a Symbol key yields the stored value — and a
missing key yields Nil, never a failure; a non-Int index on
arrays/strings, a non-Symbol key on maps, and any other receiver kind
fail. -/
theorem index_contract (E : EvalSyms) (fuel : Nat) (t i : Ast)
    (sid : Nat) (σ : Store) (tv : Value) (σ1 : Store) (iv : Value)
    (σ2 : Store)
    (ht : eval E fuel t sid σ = .ok tv σ1)
    (hi : eval E fuel i sid σ1 = .ok iv σ2) :
    (eval E (fuel+1) (.index t i) sid σ = indexOp σ2 tv iv) ∧
    (∀ r arr n v, tv = .array r → σ2.getArray r = some arr →
      iv = .int n → 0 ≤ negWrapIndex n arr.length →
      negWrapIndex n arr.length < arr.length →
      arr.get? (negWrapIndex n arr.length).toNat = some v →
      indexOp σ2 tv iv = .ok v σ2) ∧
    (∀ r arr n, tv = .array r → σ2.getArray r = some arr →
      iv = .int n →
      (negWrapIndex n arr.length < 0 ∨
        (arr.length : Int) ≤ negWrapIndex n arr.length) →
      indexOp σ2 tv iv =
        .err ("Array index out of bounds: " ++ toString n)) ∧
    (∀ r, tv = .array r → iv.isInt = false →
      indexOp σ2 tv iv = .err "Array index must be an integer") ∧
    (∀ s n c, tv = .str s → iv = .int n →
      0 ≤ negWrapIndex n s.length → negWrapIndex n s.length < s.length →
      s.data.get? (negWrapIndex n s.length).toNat = some c →
      indexOp σ2 tv iv = .ok (.str (String.singleton c)) σ2) ∧
    (∀ s n, tv = .str s → iv = .int n →
      (negWrapIndex n s.length < 0 ∨
        (s.length : Int) ≤ negWrapIndex n s.length) →
      indexOp σ2 tv iv =
        .err ("String index out of bounds: " ++ toString n)) ∧
    (∀ s, tv = .str s → iv.isInt = false →
      indexOp σ2 tv iv = .err "String index must be an integer") ∧
    (∀ r m k, tv = .map r → σ2.getMap r = some m → iv = .symbol k →
      indexOp σ2 tv iv = .ok (m.get k) σ2) ∧
    (∀ (m : MapData) k, alistLookup k m.entries = none →
      m.get k = .nil) ∧
    (∀ r, tv = .map r → iv.isSymbol = false →
      indexOp σ2 tv iv = .err "Map key must be a symbol") ∧
    (tv.isArray = false → tv.isString = false → tv.isMap = false →
      indexOp σ2 tv iv = .err ("Cannot index " ++ tv.typeName)) := by
  refine ⟨?_, ?_, ?_, ?_, ?_, ?_, ?_, ?_, ?_, ?_, ?_⟩
  · rw [eval_index]
    simp [ht, hi, EvalResult.andThen]
  · rintro r arr n v rfl harr rfl hlo hhi hv
    simp only [indexOp, harr, negWrapIndex] at *
    have hnot : ¬ ((if n < 0 then n + (arr.length : Int) else n) < 0 ∨
        (arr.length : Int) ≤ (if n < 0 then n + (arr.length : Int) else n)) := by
      push_neg
      omega
    rw [List.get?_eq_getElem?] at hv
    simp [hnot, hv]
  · rintro r arr n rfl harr rfl hoob
    have h' : ((if n < 0 then n + (arr.length : Int) else n) < 0 ∨
        (arr.length : Int) ≤ (if n < 0 then n + (arr.length : Int) else n)) := by
      simpa [negWrapIndex] using hoob
    simp [indexOp, harr, h']
  · rintro r rfl hnint
    cases iv <;> simp_all [indexOp, Value.isInt]
  · rintro s n c rfl rfl hlo hhi hc
    have hnot : ¬ ((if n < 0 then n + (s.length : Int) else n) < 0 ∨
        (s.length : Int) ≤ (if n < 0 then n + (s.length : Int) else n)) := by
      simp only [negWrapIndex] at hlo hhi
      push_neg
      omega
    simp only [indexOp]
    simp only [negWrapIndex] at hc
    rw [List.get?_eq_getElem?] at hc
    simp [hnot, hc]
  · rintro s n rfl rfl hoob
    have h' : ((if n < 0 then n + (s.length : Int) else n) < 0 ∨
        (s.length : Int) ≤ (if n < 0 then n + (s.length : Int) else n)) := by
      simpa [negWrapIndex] using hoob
    simp [indexOp, h']
  · rintro s rfl hnint
    cases iv <;> simp_all [indexOp, Value.isInt]
  · rintro r m k rfl hm rfl
    simp [indexOp, hm]
  · intro m k hk
    simp [MapData.get, hk]
  · rintro r rfl hnsym
    cases iv <;> simp_all [indexOp, Value.isSymbol]
  · intro ha hs hm
    cases tv <;> simp_all [indexOp, Value.isArray, Value.isString, Value.isMap]

end FineScript

namespace FineScript

/-- A world holding `a = [10 20 30]` in the global scope. -/
def c8Store : Store :=
  let σ := initialStore
  let p := σ.internS "a"
  let q := p.2.allocArray [.int 10, .int 20, .int 30]
  q.2.defineIn 0 p.1 q.1

/-- Witness for C8: `a[-1]` yields 30 (negative wrap), `a[5]` fails
out of bounds, indexing Nil fails, and `get` on a missing map key is
Nil. -/
theorem index_contract_witness :
    eval E0 6 (.index (.nameA "a") (.intLit (-1))) 0 c8Store =
      .ok (.int 30) c8Store ∧
    eval E0 6 (.index (.nameA "a") (.intLit 5)) 0 c8Store =
      .err "Array index out of bounds: 5" ∧
    eval E0 6 (.index .nilLit (.intLit 0)) 0 c8Store =
      .err "Cannot index nil" ∧
    (⟨[], []⟩ : MapData).get 7 = .nil := by
  have ht : eval E0 5 (.nameA "a") 0 c8Store = .ok (.array 0) c8Store := by
    rw [eval_nameA]
    rfl
  refine ⟨?_, ?_, ?_, ?_⟩
  · have h := index_contract E0 5 (.nameA "a") (.intLit (-1)) 0 c8Store
      (.array 0) c8Store (.int (-1)) c8Store ht
      (eval_intLit E0 4 (-1) 0 c8Store)
    rw [h.1]
    exact h.2.1 0 [.int 10, .int 20, .int 30] (-1) (.int 30) rfl (by decide)
      rfl (by decide) (by decide) (by decide)
  · have h := index_contract E0 5 (.nameA "a") (.intLit 5) 0 c8Store
      (.array 0) c8Store (.int 5) c8Store ht
      (eval_intLit E0 4 5 0 c8Store)
    rw [h.1]
    exact h.2.2.1 0 [.int 10, .int 20, .int 30] 5 rfl (by decide) rfl
      (by decide)
  · have h := index_contract E0 5 .nilLit (.intLit 0) 0 c8Store
      .nil c8Store (.int 0) c8Store (eval_nilLit E0 4 0 c8Store)
      (eval_intLit E0 4 0 0 c8Store)
    rw [h.1]
    exact h.2.2.2.2.2.2.2.2.2.2 rfl rfl rfl
  · have h := index_contract E0 5 .nilLit (.intLit 0) 0 c8Store
      .nil c8Store (.int 0) c8Store (eval_nilLit E0 4 0 c8Store)
      (eval_intLit E0 4 0 0 c8Store)
    exact h.2.2.2.2.2.2.2.2.1 ⟨[], []⟩ 7 rfl

/-- C5: the return boundary.  With a call frame bound (`bindParams`
finished normally, and no variadic collectors, so the store at body
entry is `σb`): a `ReturnSignal` produced by the closure's *body* is
caught exactly at this call's boundary and becomes the call's result
(`Evaluator::callClosure`, evaluator.cpp:776-781); ordinary results
and errors pass through unchanged; the call's result is never itself a
`ReturnSignal`, so an enclosing closure's boundary can never observe
one thrown from this body; and a `ReturnSignal` reaching the top of
`ScriptEngine::execute` (script_engine.cpp:94-97) is caught there with
`success = true` and its value as the script's return value. -/
theorem return_boundary (E : EvalSyms) (fuel : Nat) (clo : Closure)
    (args : List Value) (σ σb : Store)
    (hrest : clo.hasRestParam = false) (hkw : clo.hasKwargsParam = false)
    (hbind : bindParams E fuel clo clo.paramIds 0 args
      (σ.createChild clo.capturedScope).1
      (σ.createChild clo.capturedScope).2 = .ok () σb) :
    (∀ v σ', eval E fuel clo.body (σ.createChild clo.capturedScope).1 σb =
        .ret v σ' → callClosure E (fuel+1) clo args σ = .ok v σ') ∧
    (∀ v σ', eval E fuel clo.body (σ.createChild clo.capturedScope).1 σb =
        .ok v σ' → callClosure E (fuel+1) clo args σ = .ok v σ') ∧
    (∀ m, eval E fuel clo.body (σ.createChild clo.capturedScope).1 σb =
        .err m → callClosure E (fuel+1) clo args σ = .err m) ∧
    ((callClosure E (fuel+1) clo args σ).isRet = false) ∧
    (∀ froot root ctxScope σr v σ',
      eval E froot root ctxScope σr = .ret v σ' →
      execute E froot root ctxScope σr =
        some { success := true, returnValue := v }) := by
  have hcc : callClosure E (fuel+1) clo args σ =
      (match eval E fuel clo.body (σ.createChild clo.capturedScope).1 σb with
       | .ret v σ5 => .ok v σ5
       | other => other) := by
    rw [callClosure_succ]
    simp [hbind, EvalResult.andThen, hrest, hkw]
  refine ⟨?_, ?_, ?_, ?_, ?_⟩
  · intro v σ' hb
    rw [hcc, hb]
  · intro v σ' hb
    rw [hcc, hb]
  · intro m hb
    rw [hcc, hb]
  · rw [hcc]
    cases eval E fuel clo.body (σ.createChild clo.capturedScope).1 σb <;>
      simp [EvalResult.isRet]
  · intro froot root ctxScope σr v σ' hb
    unfold execute
    rw [hb]

/-- The closure `fn [] do return 7; 99 end` over the global scope. -/
def c5Closure : Closure :=
  { paramIds := [], body := .block [.returnA (some (.intLit 5)), .intLit 99],
    capturedScope := 0 }

/-- Witness for C5: calling a closure whose body returns 5 before a
trailing 99 yields 5 at the call boundary, and a top-level `return 5`
makes the script succeed with value 5. -/
theorem return_boundary_witness :
    callClosure E0 6 c5Closure [] initialStore =
      .ok (.int 5) (initialStore.createChild 0).2 ∧
    execute E0 6 (.returnA (some (.intLit 5))) 0 initialStore =
      some { success := true, returnValue := .int 5 } := by
  have hbind : bindParams E0 5 c5Closure c5Closure.paramIds 0 []
      (initialStore.createChild c5Closure.capturedScope).1
      (initialStore.createChild c5Closure.capturedScope).2 =
      .ok () (initialStore.createChild 0).2 := by
    exact bindParams_nil E0 4 c5Closure 0 [] 1 _
  have h := return_boundary E0 5 c5Closure [] initialStore
    (initialStore.createChild 0).2 rfl rfl hbind
  constructor
  · refine h.1 (.int 5) (initialStore.createChild 0).2 ?_
    have hb0 : c5Closure.body =
        Ast.block [.returnA (some (.intLit 5)), .intLit 99] := rfl
    rw [hb0, eval_block, evalStmts_cons, eval_returnA]
    simp [eval_intLit, EvalResult.andThen]
  · refine h.2.2.2.2 6 (.returnA (some (.intLit 5))) 0 initialStore
      (.int 5) initialStore ?_
    rw [eval_returnA]
    simp [eval_intLit, EvalResult.andThen]

end FineScript

namespace FineScript

/-- C2 (amended): at each of the three auto-method store sites — map
literals (evaluator.cpp:463-467), dotted `set` (evaluator.cpp:507-511)
and the built-in `map.set` (evaluator.cpp:887-891) — the store marks
the key as a method when the stored value satisfies the auto-method
condition (closure whose first parameter is `self`) and otherwise
*leaves the flag as it was*: the flag after the store is the OR of the
new value's condition and the key's previous flag.  A store never
clears the flag (only `MapData::remove` does); other keys' flags are
untouched, and the entry itself is updated. -/
theorem auto_method_flag_monotone (E : EvalSyms) (σ : Store) (m : MapData)
    (key : Nat) (v : Value) (k' : Nat) :
    ((autoMethodStore E σ m key v).isMethod key =
      (isAutoMethod E σ v || m.isMethod key)) ∧
    (k' ≠ key →
      (autoMethodStore E σ m key v).isMethod k' = m.isMethod k') ∧
    ((autoMethodStore E σ m key v).get key = v) := by
  refine ⟨?_, ?_, ?_⟩
  · by_cases ham : isAutoMethod E σ v
    · simp only [autoMethodStore, ham, if_pos]
      simp only [MapData.markMethod, MapData.set, MapData.isMethod,
        natsetInsert]
      by_cases hk : key ∈ m.methodKeys <;> simp [hk]
    · simp [autoMethodStore, ham, MapData.set, MapData.isMethod]
  · intro hne
    by_cases ham : isAutoMethod E σ v
    · simp only [autoMethodStore, ham, if_pos]
      simp only [MapData.markMethod, MapData.set, MapData.isMethod,
        natsetInsert]
      by_cases hk : key ∈ m.methodKeys <;> simp [hk, hne]
    · simp [autoMethodStore, ham, MapData.set, MapData.isMethod]
  · by_cases ham : isAutoMethod E σ v <;>
      simp [autoMethodStore, ham, MapData.set, MapData.markMethod,
        MapData.get, alistLookup_insert_self]

/-- Witness for the amended C2: storing a non-qualifying value on a
fresh key leaves its flag clear, and flags of other keys are
untouched. -/
theorem auto_method_flag_monotone_witness :
    (autoMethodStore E0 initialStore ⟨[], [5]⟩ 3 (.int 1)).isMethod 3 =
      (isAutoMethod E0 initialStore (.int 1) || false) ∧
    (autoMethodStore E0 initialStore ⟨[], [5]⟩ 3 (.int 1)).isMethod 5 =
      true ∧
    (autoMethodStore E0 initialStore ⟨[], [5]⟩ 3 (.int 1)).get 3 = .int 1 := by
  have h := auto_method_flag_monotone E0 initialStore ⟨[], [5]⟩ 3 (.int 1) 5
  refine ⟨?_, ?_, h.2.2⟩
  · have := h.1
    rw [this]
    decide
  · rw [h.2.1 (by decide)]
    decide

/-- A world holding one closure (ref 0) whose sole parameter is the symbol
`self`, and one empty map (ref 0). -/
def c2Store : Store :=
  ((initialStore.allocClosure
      { paramIds := [E0.sym_self], body := .nilLit,
        capturedScope := 0 }).2.allocMap).2

/-- C2 counterexample: store a `self`-closure at key 42 through the
built-in `map.set` (the flag becomes set), then overwrite key 42 with
the Int 1 through `map.set` again.  The claim says the flag now equals
the auto-method condition of Int 1 — false; the code keeps the flag
set. -/
theorem auto_method_overwrite_counterexample :
    (match dispatchBuiltinMethod E0 9 (.map 0) E0.sym_set
        [.symbol 42, .closure 0] c2Store with
     | .ok _ σ2 =>
       (match dispatchBuiltinMethod E0 9 (.map 0) E0.sym_set
           [.symbol 42, .int 1] σ2 with
        | .ok _ σ3 =>
          (match σ3.getMap 0 with
           | some m => m.isMethod 42
           | none => false)
        | _ => false)
     | _ => false) = true ∧
    isAutoMethod E0 c2Store (.int 1) = false := by
  constructor <;> decide

end FineScript

namespace FineScript

theorem dispatchCallTail_succ (E : EvalSyms) (fuel : Nat) (base : Ast)
    (fields : List String) (methodName : String) (methodSym : Nat)
    (receiver : Value) (args : List Value) (namedKeys : List String)
    (namedVals : List Ast) (sid : Nat) (σ : Store) :
    dispatchCallTail E (fuel+1) base fields methodName methodSym receiver
        args namedKeys namedVals sid σ =
      (if receiver.isMap ∧ isBuiltinMapMethod E methodSym then
        dispatchBuiltinMethod E fuel receiver methodSym args σ
      else if receiver.isArray ∧ isBuiltinArrayMethod E methodSym then
        dispatchBuiltinMethod E fuel receiver methodSym args σ
      else if receiver.isString ∧ isBuiltinStringMethod E methodSym then
        dispatchBuiltinMethod E fuel receiver methodSym args σ
      else
        match receiver with
        | .map mref =>
          (match σ.getMap mref with
           | none => .err "dangling map"
           | some m =>
             if m.has methodSym then
               let func := m.get methodSym
               let args := if m.isMethod methodSym then receiver :: args
                 else args
               if args.isEmpty ∧ namedKeys.isEmpty ∧ ¬ func.isCallable then
                 .ok func σ
               else if ¬ namedKeys.isEmpty ∧ func.isClosure then
                 (evalNamedList E fuel namedKeys namedVals sid σ).andThen
                   fun namedArgs σ =>
                   (match func with
                    | .closure cref =>
                      (match σ.getClosure cref with
                       | some clo =>
                         callClosureWithNamed E fuel clo args namedArgs σ
                       | none => .err "dangling closure")
                    | _ => .err "unreachable")
               else if ¬ namedKeys.isEmpty ∧ func.isNativeFunction then
                 (evalNamedList E fuel namedKeys namedVals sid σ).andThen
                   fun namedArgs σ =>
                   let (kwargsMap, σ) := collectKwargsMap σ namedArgs
                   callFunction E fuel func (args ++ [kwargsMap]) σ
               else callFunction E fuel func args σ
             else if args.isEmpty ∧ namedKeys.isEmpty then
               eval E fuel (.dottedName base fields) sid σ
             else
               .err ("No method '" ++ methodName ++ "' on " ++
                 receiver.typeName))
        | _ =>
          if args.isEmpty ∧ namedKeys.isEmpty then
            eval E fuel (.dottedName base fields) sid σ
          else
            .err ("No method '" ++ methodName ++ "' on " ++
              receiver.typeName)) := by
  rw [dispatchCallTail.eq_def]

/-! ## The shared `for`-loop scope (C9)

The seed program `set fns []` ; `for x in xs do fns.push (fn [] x)
end`, over a world whose global scope binds `xs` to an array of
integers. -/

/-- `fn [] x` — the anonymous closure expression created in the loop
body. -/
def c9FnX : Ast := .fn "" [] 0 (.nameA "x") [] ""

/-- `fns.push (fn [] x)` — the loop body. -/
def c9Body : Ast :=
  .call (.dottedName (.nameA "fns") ["push"]) [c9FnX] [] []

/-- `set fns []`. -/
def c9Stmt1 : Ast := .setA ["fns"] (.arrayLit [])

/-- `for x in xs do fns.push (fn [] x) end`. -/
def c9Stmt2 : Ast := .forA "x" (.nameA "xs") c9Body

/-- The start world: `xs` (symbol 30) bound to array 0 holding the
integers. -/
def c9Store (xs : List Int) : Store :=
  let σ := initialStore
  let p := σ.internS "xs"
  let q := p.2.allocArray (xs.map Value.int)
  q.2.defineIn 0 p.1 q.1

/-- The interner after the program has interned `xs`, `fns`, `x`. -/
def c9Interner : DefaultInterner :=
  ⟨evalSetup.2.strings ++ ["xs", "fns", "x"]⟩

/-- The closure each iteration allocates: no parameters, body `x`,
capturing the single loop scope (id 1). -/
def cloX : Closure :=
  { paramIds := [], body := .nameA "x", capturedScope := 1 }

/-- The world mid-loop, after `k` iterations with the loop variable
`x` (symbol 32) last set to `xv`: one loop scope (id 1, child of the
global scope), `fns` = array 1 holding the `k` closures allocated so
far (refs `0..k-1`), all sharing scope 1. -/
def c9LoopState (xs : List Int) (k : Nat) (xv : Value) : Store :=
  { scopes := [⟨none, [(30, .array 0), (31, .array 1)]⟩,
               ⟨some 0, [(32, xv)]⟩],
    arrays := [xs.map Value.int,
               (List.range k).map (fun j => Value.closure j)],
    maps := [], closures := List.replicate k cloX,
    interner := c9Interner, ctx := none }

end FineScript

namespace FineScript

theorem c9_internS_fns (xs : List Int) (k : Nat) (v : Value) :
    (c9LoopState xs k v).internS "fns" = (31, c9LoopState xs k v) := rfl

theorem c9_internS_push (xs : List Int) (k : Nat) (v : Value) :
    (c9LoopState xs k v).internS "push" = (7, c9LoopState xs k v) := rfl

theorem c9_define (xs : List Int) (k : Nat) (xv v : Value) :
    (c9LoopState xs k xv).defineIn 1 32 v = c9LoopState xs k v := rfl

theorem c9_eval_fns (xs : List Int) (k : Nat) (v : Value) :
    eval E0 58 (.nameA "fns") 1 (c9LoopState xs k v) =
      .ok (.array 1) (c9LoopState xs k v) := by
  rw [eval_nameA, c9_internS_fns]
  rfl

def c9Mid (xs : List Int) (k : Nat) (xv : Value) : Store :=
  { c9LoopState xs k xv with closures := List.replicate (k+1) cloX }

theorem c9_mkclo (xs : List Int) (k : Nat) (v : Value) :
    makeClosureValue "" [] 0 (.nameA "x") [] "" 1 (c9LoopState xs k v) =
      .ok (.closure k) (c9Mid xs k v) := by
  simp [makeClosureValue, Store.allocClosure, c9Mid, c9LoopState, cloX,
    List.replicate_succ']

theorem c9_dispatch_push (xs : List Int) (k : Nat) (v : Value) :
    dispatchBuiltinMethod E0 57 (.array 1) 7 [.closure k] (c9Mid xs k v) =
      .ok (.int ((k : Int) + 1)) (c9LoopState xs (k+1) v) := by
  have e1 : E0.sym_length = 6 := rfl
  have e2 : E0.sym_push = 7 := rfl
  simp [dispatchBuiltinMethod, Store.getArray, Store.setArray, c9Mid,
    c9LoopState, e1, e2, List.range_succ]

theorem c9_body_step (xs : List Int) (k : Nat) (a : Int) :
    eval E0 60 c9Body 1 (c9LoopState xs k (.int a)) =
      .ok (.int ((k : Int) + 1)) (c9LoopState xs (k + 1) (.int a)) := by
  have harr : isBuiltinArrayMethod E0 7 = true := by decide
  have hmap : (Value.array 1).isMap = false := rfl
  rw [show c9Body =
    Ast.call (.dottedName (.nameA "fns") ["push"]) [c9FnX] [] [] from rfl]
  rw [eval_call]
  show evalMethodCall E0 59 (.nameA "fns") ["push"] [c9FnX] [] [] 1
      (c9LoopState xs k (.int a)) = _
  rw [evalMethodCall_succ, c9_eval_fns]
  simp only [EvalResult.andThen,
    show (["push"] : List String).dropLast = [] from rfl,
    show (["push"] : List String).getLast?.getD "" = "push" from rfl,
    navReceiver, c9_internS_push]
  rw [evalArgsList_cons]
  rw [show c9FnX = Ast.fn "" [] 0 (.nameA "x") [] "" from rfl, eval_fn,
    c9_mkclo]
  simp only [EvalResult.andThen]
  rw [evalArgsList_nil]
  simp only [EvalResult.andThen]
  rw [dispatchCallTail_succ]
  simp only [hmap, harr, Value.isArray, Bool.false_eq_true, false_and,
    if_false, true_and, if_true, ite_true, ite_false, and_true, and_false,
    reduceIte]
  rw [c9_dispatch_push]

theorem c9_loop (elems : List Int) :
    ∀ (a : Int) (k : Nat) (xs : List Int) (res xv : Value),
    evalForLoop E0 61 (Value.int a :: elems.map Value.int) 32 c9Body 1 res
        (c9LoopState xs k xv) =
      .ok (.int ((k : Int) + 1 + elems.length))
        (c9LoopState xs (k + 1 + elems.length)
          (.int (elems.getLastD a))) := by
  induction elems with
  | nil =>
    intro a k xs res xv
    rw [evalForLoop_cons, c9_define, c9_body_step]
    simp only [EvalResult.andThen, List.map_nil]
    rw [evalForLoop_nil]
    simp [List.getLastD]
  | cons b elems ih =>
    intro a k xs res xv
    rw [evalForLoop_cons, c9_define, c9_body_step]
    simp only [EvalResult.andThen, List.map_cons]
    rw [ih]
    have h1 : ((k + 1 : Nat) : Int) + 1 + (elems.length : Int) =
        (k : Int) + 1 + ((b :: elems).length : Int) := by
      push_cast [List.length_cons]; ring
    have h2 : k + 1 + 1 + elems.length = k + 1 + (b :: elems).length := by
      simp; omega
    rw [h1, h2, List.getLastD_cons]

def c9StoreA (xs : List Int) : Store :=
  { scopes := [⟨none, [(30, .array 0), (31, .array 1)]⟩],
    arrays := [xs.map Value.int, []], maps := [], closures := [],
    interner := ⟨evalSetup.2.strings ++ ["xs", "fns"]⟩, ctx := none }

def c9StoreB (xs : List Int) : Store :=
  { c9StoreA xs with interner := c9Interner }

theorem c9_stmt1 (xs : List Int) :
    eval E0 63 c9Stmt1 0 (c9Store xs) = .ok (.array 1) (c9StoreA xs) := by
  rw [show c9Stmt1 = Ast.setA ["fns"] (.arrayLit []) from rfl, eval_setA,
    eval_arrayLit, evalArgsList_nil]
  rfl

theorem c9_stmt2 (xs : List Int) (v : Value) (σf : Store)
    (h : evalForLoop E0 61 (xs.map Value.int) 32 c9Body 1 .nil
      (c9LoopState xs 0 .nil) = .ok v σf) :
    eval E0 62 c9Stmt2 0 (c9StoreA xs) = .ok v σf := by
  rw [show c9Stmt2 = Ast.forA "x" (.nameA "xs") c9Body from rfl, eval_forA]
  have hx : (c9StoreA xs).internS "x" = (32, c9StoreB xs) := rfl
  have hxs : eval E0 61 (.nameA "xs") 0 (c9StoreB xs) =
      .ok (.array 0) (c9StoreB xs) := by
    rw [eval_nameA]
    rfl
  simp only [hx, hxs, EvalResult.andThen]
  show evalForLoop E0 61 (xs.map Value.int) 32 c9Body 1 .nil
      (c9LoopState xs 0 .nil) = .ok v σf
  exact h

theorem c9_setup (xs : List Int) (v : Value) (σf : Store)
    (h : evalForLoop E0 61 (xs.map Value.int) 32 c9Body 1 .nil
      (c9LoopState xs 0 .nil) = .ok v σf) :
    evalStmts E0 64 [c9Stmt1, c9Stmt2] .nil 0 (c9Store xs) = .ok v σf := by
  rw [evalStmts_cons, c9_stmt1]
  simp only [EvalResult.andThen]
  rw [evalStmts_cons, c9_stmt2 xs v σf h]
  simp only [EvalResult.andThen]
  rw [evalStmts_nil]

theorem c9_call (xs : List Int) (n : Nat) (lastv : Int) :
    callClosure E0 8 cloX [] (c9LoopState xs n (.int lastv)) =
      .ok (.int lastv)
        (((c9LoopState xs n (.int lastv)).createChild 1).2) := by
  rw [callClosure_succ]
  have hb : eval E0 7 cloX.body
      ((c9LoopState xs n (.int lastv)).createChild 1).1
      ((c9LoopState xs n (.int lastv)).createChild 1).2 =
      .ok (.int lastv)
        ((c9LoopState xs n (.int lastv)).createChild 1).2 := by
    rw [show cloX.body = Ast.nameA "x" from rfl, eval_nameA]
    rfl
  simp only [show cloX.paramIds = ([] : List Nat) from rfl,
    show cloX.capturedScope = 1 from rfl,
    show cloX.hasRestParam = false from rfl,
    show cloX.hasKwargsParam = false from rfl,
    bindParams_nil, EvalResult.andThen, Bool.false_eq_true, if_false,
    reduceIte, hb]

/-- C9: a `for` loop creates exactly one child scope for its whole run
and redefines the loop variable in that same scope each iteration;
every closure created in the body captures that one shared scope, and
after the loop all of them observe the final iteration's value. -/
theorem for_loop_shared_scope (xs : List Int) (h : xs ≠ []) :
    ∃ σf : Store,
      evalStmts E0 64 [c9Stmt1, c9Stmt2] .nil 0 (c9Store xs) =
        .ok (.int (xs.length : Int)) σf ∧
      σf.scopes.length = (c9Store xs).scopes.length + 1 ∧
      σf.scopes[1]? = some ⟨some 0, [(32, .int (xs.getLastD 0))]⟩ ∧
      σf.getArray 1 =
        some ((List.range xs.length).map fun j => Value.closure j) ∧
      (∀ j, j < xs.length → σf.getClosure j = some cloX) ∧
      cloX.capturedScope = 1 ∧
      (∀ j clo, σf.getClosure j = some clo →
        callClosure E0 8 clo [] σf =
          .ok (.int (xs.getLastD 0)) ((σf.createChild 1).2)) := by
  obtain ⟨a, rest, rfl⟩ := List.exists_cons_of_ne_nil h
  refine ⟨c9LoopState (a :: rest) (a :: rest).length
      (.int ((a :: rest).getLastD 0)), ?_, ?_, ?_, ?_, ?_, rfl, ?_⟩
  · have hloop := c9_loop rest a 0 (a :: rest) Value.nil Value.nil
    have e1 : ((0 : Nat) : Int) + 1 + (rest.length : Int) =
        ((a :: rest).length : Int) := by
      push_cast [List.length_cons]; ring
    have e2 : 0 + 1 + rest.length = (a :: rest).length := by
      simp only [List.length_cons]; omega
    have e3 : rest.getLastD a = (a :: rest).getLastD 0 :=
      (List.getLastD_cons _ _ _).symm
    rw [e1, e2, e3, ← List.map_cons] at hloop
    exact c9_setup (a :: rest) _ _ hloop
  · rfl
  · rfl
  · rfl
  · intro j hj
    simp only [List.length_cons] at hj
    simp [Store.getClosure, c9LoopState, List.get?_eq_getElem?,
      List.getElem?_replicate, hj]
  · intro j clo hc
    simp [Store.getClosure, c9LoopState, List.get?_eq_getElem?,
      List.getElem?_replicate, Option.ite_none_right_eq_some] at hc
    obtain ⟨hj, rfl⟩ := hc
    exact c9_call (a :: rest) (a :: rest).length ((a :: rest).getLastD 0)

/-- Witness for C9 at `xs = [1, 2, 3]`. -/
theorem for_loop_shared_scope_witness :
    ([1, 2, 3] : List Int) ≠ [] ∧
    (∃ σf : Store,
      evalStmts E0 64 [c9Stmt1, c9Stmt2] .nil 0 (c9Store [1, 2, 3]) =
        .ok (.int (([1, 2, 3] : List Int).length : Int)) σf ∧
      σf.scopes.length = (c9Store [1, 2, 3]).scopes.length + 1 ∧
      σf.scopes[1]? =
        some ⟨some 0, [(32, .int (([1, 2, 3] : List Int).getLastD 0))]⟩ ∧
      σf.getArray 1 =
        some ((List.range ([1, 2, 3] : List Int).length).map
          fun j => Value.closure j) ∧
      (∀ j, j < ([1, 2, 3] : List Int).length →
        σf.getClosure j = some cloX) ∧
      cloX.capturedScope = 1 ∧
      (∀ j clo, σf.getClosure j = some clo →
        callClosure E0 8 clo [] σf =
          .ok (.int (([1, 2, 3] : List Int).getLastD 0))
            ((σf.createChild 1).2))) :=
  ⟨by decide, for_loop_shared_scope [1, 2, 3] (by decide)⟩

end FineScript
